import Mathlib

/-!
Verification of the Memory Scramble concurrent game board (`Board` class).

The TypeScript `Board` class is embedded shallowly: the mutable object state
becomes a Lean structure `MS.Board`, each method becomes a pure function from
a board to a board together with its result, and the asynchronous wake-ups
(`notifyCardAvailable`, `notifyWatchers`) are recorded as an explicit event
trace.  A suspended `flip` (rule 1-D) is modelled by the `FlipRes.wait`
outcome; the code that runs after the `await` is the separate function
`flipFirstResume`.  Failed `assert` calls in the source throw; they are
modelled by error results that leave the board unchanged.
-/

namespace MS

/-- A card spot on the board: `card = none` models the TypeScript `null`
("no card / removed"); the empty string is a present-but-empty label. -/
structure Spot where
  card : Option String
  faceUp : Bool
  controller : Option String
deriving Repr, DecidableEq

/-- Per-player turn state (`PlayerState` in the source). -/
structure PlayerState where
  firstCard : Option (Nat × Nat)
  secondCard : Option (Nat × Nat)
  matched : Bool
deriving Repr, DecidableEq

/-- The board: grid of spots, player map, per-cell FIFO waiter queues
(waiters are identified by the id of the waiting player), and the list of
registered watchers (identified by watcher player id). -/
structure Board where
  rows : Nat
  columns : Nat
  grid : Nat → Nat → Spot
  players : String → Option PlayerState
  waitingForCard : Nat × Nat → List String
  watchers : List String

/-- Error kinds raised by board operations.  `Assert` stands for the
internal `assert` failures on state that the source considers impossible;
`OutOfRange` is the assertion failure on a caller-supplied coordinate. -/
inductive Err where
  | NoCard
  | StillHeld
  | Held
  | OutOfRange
  | Assert
deriving Repr, DecidableEq

/-- Result of a `flip` call: `done` with the rendered board, a failure, or a
suspension on the waiter queue of cell `(r, c)` (rule 1-D). -/
inductive FlipRes where
  | done (s : String)
  | fail (e : Err)
  | wait (r c : Nat)
deriving Repr, DecidableEq

/-- Wake-up events emitted by an operation, in order: `wake r c w` means the
waiter `w` queued on cell `(r, c)` was resumed (`notifyCardAvailable`);
`notify ws` means all currently registered watchers `ws` were resumed
(`notifyWatchers`). -/
inductive Ev where
  | wake (r c : Nat) (w : String)
  | notify (ws : List String)
deriving Repr, DecidableEq

/-- The `spot.card === null || spot.card.length === 0` test used throughout
the source: absent or empty labels count as "no card". -/
def noCard : Option String → Bool
  | none => true
  | some s => s.length = 0

/-- Replace the spot at `(r, c)`. -/
def updSpot (b : Board) (r c : Nat) (s : Spot) : Board :=
  { b with grid := fun r2 c2 => if r2 = r ∧ c2 = c then s else b.grid r2 c2 }

/-- Replace the player state of `pid`. -/
def setPS (b : Board) (pid : String) (ps : PlayerState) : Board :=
  { b with players := fun q => if q = pid then some ps else b.players q }

/-- Replace the waiter queue of cell `(r, c)`. -/
def setQueue (b : Board) (r c : Nat) (q : List String) : Board :=
  { b with waitingForCard := fun k => if k = (r, c) then q else b.waitingForCard k }

namespace Board

/-- The per-cell line of `boardStateFor` (the if-chain of source lines 503-511). -/
def cellLine (spot : Spot) (playerId : String) : String :=
  match spot.card with
  | none => "none"
  | some s =>
    if s.length = 0 then "none"
    else if !spot.faceUp then "down"
    else if spot.controller = some playerId then "my " ++ s
    else "up " ++ s

/-- Render `boardStateFor(playerId)`: header line then one line per cell in
row-major order, accumulated exactly like the `result +=` loop of the source. -/
def boardStateFor (b : Board) (playerId : String) : String :=
  (List.range b.rows).foldl
    (fun acc r =>
      (List.range b.columns).foldl
        (fun acc2 c => acc2 ++ cellLine (b.grid r c) playerId ++ "\n") acc)
    (toString b.rows ++ "x" ++ toString b.columns ++ "\n")

/-- Register the player if unknown (`ensurePlayer(playerId)`). -/
def ensurePlayer (b : Board) (playerId : String) : Board :=
  match b.players playerId with
  | some _ => b
  | none => setPS b playerId { firstCard := none, secondCard := none, matched := false }

/-- Operation `look(playerId)`: render after registering the player. -/
def look (b : Board) (playerId : String) : String × Board :=
  let b0 := ensurePlayer b playerId
  (boardStateFor b0 playerId, b0)

/-- Operation `watch(playerId)`: register a one-shot watcher. -/
def watch (b : Board) (playerId : String) : Board :=
  let b0 := ensurePlayer b playerId
  { b0 with watchers := b0.watchers ++ [playerId] }

/-- Drain the watcher list and wake every entry (`notifyWatchers()`). -/
def notifyWatchers (b : Board) : Board × List Ev :=
  ({ b with watchers := [] }, [Ev.notify b.watchers])

/-- Wake exactly the first (oldest) queued waiter (`notifyCardAvailable`):
waiter queued on the cell, if any. -/
def notifyCardAvailable (b : Board) (r c : Nat) : Board × List Ev :=
  match b.waitingForCard (r, c) with
  | [] => (b, [])
  | w :: rest => (setQueue b r c rest, [Ev.wake r c w])

/-- Append the caller to the end of the FIFO waiter queue of the cell
(`waitForCard`); the suspension itself is the `FlipRes.wait` outcome. -/
def waitForCard (b : Board) (playerId : String) (r c : Nat) : Board :=
  setQueue b r c (b.waitingForCard (r, c) ++ [playerId])

/-- Source lines 299-310: the tail of `flipFirstCard` after all checks have
passed - turn the card face up (notifying watchers on a change), take
control, record the first card, and give the next queued waiter its chance. -/
def flipFirstTail (b : Board) (playerId : String) (r c : Nat) :
    Board × FlipRes × List Ev :=
  match b.players playerId with
  | none => (b, .fail .Assert, [])
  | some ps =>
    let spot := b.grid r c
    let p1 : Board × List Ev :=
      if spot.faceUp then (b, [])
      else notifyWatchers (updSpot b r c { spot with faceUp := true })
    let s1 := p1.1.grid r c
    let b2 := updSpot p1.1 r c { s1 with controller := some playerId }
    let b3 := setPS b2 playerId { ps with firstCard := some (r, c) }
    let p2 := notifyCardAvailable b3 r c
    (p2.1, .done (boardStateFor p2.1 playerId), p1.2 ++ p2.2)

/-- Rule 1 (`flipFirstCard(playerId, row, column)`) up to its suspension point. -/
def flipFirstCard (b : Board) (playerId : String) (r c : Nat) :
    Board × FlipRes × List Ev :=
  if r < b.rows ∧ c < b.columns then
    match b.players playerId with
    | none => (b, .fail .Assert, [])
    | some _ =>
      let spot := b.grid r c
      if noCard spot.card then (b, .fail .NoCard, [])
      else if spot.controller ≠ none ∧ spot.controller ≠ some playerId then
        (waitForCard b playerId r c, .wait r c, [])
      else flipFirstTail b playerId r c
  else (b, .fail .OutOfRange, [])

/-- The continuation of a suspended `flipFirstCard` (source lines 286-310):
after being woken, re-check the card and its controller, then run the tail. -/
def flipFirstResume (b : Board) (playerId : String) (r c : Nat) :
    Board × FlipRes × List Ev :=
  let spot := b.grid r c
  if noCard spot.card then (b, .fail .NoCard, [])
  else if spot.controller ≠ none ∧ spot.controller ≠ some playerId then
    (b, .fail .StillHeld, [])
  else flipFirstTail b playerId r c

/-- Shared failure path of `flipSecondCard` rules 2-A and 2-B: drop the
first card from the turn state, release its spot, and wake the next waiter
queued on it. -/
def releaseFirst (b : Board) (playerId : String) (ps : PlayerState)
    (fr fc : Nat) : Board × List Ev :=
  let b1 := setPS b playerId { ps with firstCard := none }
  let b2 := updSpot b1 fr fc { b1.grid fr fc with controller := none }
  notifyCardAvailable b2 fr fc

/-- Rule 2 (`flipSecondCard(playerId, row, column)`). -/
def flipSecondCard (b : Board) (playerId : String) (r c : Nat) :
    Board × FlipRes × List Ev :=
  if r < b.rows ∧ c < b.columns then
    match b.players playerId with
    | none => (b, .fail .Assert, [])
    | some ps =>
      match ps.firstCard with
      | none => (b, .fail .Assert, [])
      | some fpos =>
        if fpos.1 < b.rows ∧ fpos.2 < b.columns then
          let spot := b.grid r c
          if noCard spot.card then
            let p := Board.releaseFirst b playerId ps fpos.1 fpos.2
            (p.1, .fail .NoCard, p.2)
          else if spot.controller ≠ none then
            let p := Board.releaseFirst b playerId ps fpos.1 fpos.2
            (p.1, .fail .Held, p.2)
          else
            let p1 : Board × List Ev :=
              if spot.faceUp then (b, [])
              else notifyWatchers (updSpot b r c { spot with faceUp := true })
            let b2 := setPS p1.1 playerId { ps with secondCard := some (r, c) }
            let firstSpot := b2.grid fpos.1 fpos.2
            let spot2 := b2.grid r c
            if firstSpot.card = spot2.card then
              let b3 := updSpot b2 r c { spot2 with controller := some playerId }
              let b4 := setPS b3 playerId
                { ps with secondCard := some (r, c), matched := true }
              (b4, .done (boardStateFor b4 playerId), p1.2)
            else
              let b3 := setPS b2 playerId
                { ps with secondCard := some (r, c), matched := false }
              let b4 := updSpot b3 fpos.1 fpos.2 { firstSpot with controller := none }
              let p2 := notifyCardAvailable b4 fpos.1 fpos.2
              (p2.1, .done (boardStateFor p2.1 playerId), p1.2 ++ p2.2)
        else (b, .fail .Assert, [])
  else (b, .fail .OutOfRange, [])

/-- A removed spot: `card = null`, `faceUp = false`, `controller = null`. -/
def removeSpot (b : Board) (r c : Nat) : Board :=
  updSpot b r c { card := none, faceUp := false, controller := none }

/-- Rule 3 (`finishPreviousPlay(playerId)`).  Returns `some err` when an
internal assertion would have thrown. -/
def finishPreviousPlay (b : Board) (playerId : String) :
    Board × Option Err × List Ev :=
  match b.players playerId with
  | none => (b, some .Assert, [])
  | some ps =>
    match ps.firstCard with
    | none => (b, none, [])
    | some fpos =>
      if fpos.1 < b.rows ∧ fpos.2 < b.columns then
        match ps.secondCard with
        | some spos =>
          if spos.1 < b.rows ∧ spos.2 < b.columns then
            if ps.matched then
              let b1 := removeSpot b fpos.1 fpos.2
              let b2 := removeSpot b1 spos.1 spos.2
              let p1 := notifyWatchers b2
              let p2 := notifyCardAvailable p1.1 fpos.1 fpos.2
              let p3 := notifyCardAvailable p2.1 spos.1 spos.2
              let b3 := setPS p3.1 playerId
                { firstCard := none, secondCard := none, matched := false }
              (b3, none, p1.2 ++ p2.2 ++ p3.2)
            else
              let fs := b.grid fpos.1 fpos.2
              let p1 : Board × List Ev :=
                if fs.card ≠ none ∧ fs.faceUp ∧ fs.controller = none then
                  notifyWatchers (updSpot b fpos.1 fpos.2 { fs with faceUp := false })
                else (b, [])
              let ss := p1.1.grid spos.1 spos.2
              let p2 : Board × List Ev :=
                if ss.card ≠ none ∧ ss.faceUp ∧ ss.controller = none then
                  notifyWatchers (updSpot p1.1 spos.1 spos.2 { ss with faceUp := false })
                else (p1.1, [])
              let b3 := setPS p2.1 playerId
                { firstCard := none, secondCard := none, matched := false }
              (b3, none, p1.2 ++ p2.2)
          else (b, some .Assert, [])
        | none =>
          let fs := b.grid fpos.1 fpos.2
          let p1 : Board × List Ev :=
            if fs.card ≠ none ∧ fs.faceUp ∧ fs.controller = none then
              notifyWatchers (updSpot b fpos.1 fpos.2 { fs with faceUp := false })
            else (b, [])
          let b3 := setPS p1.1 playerId
            { firstCard := none, secondCard := none, matched := false }
          (b3, none, p1.2)
      else (b, some .Assert, [])

/-- Operation `flip(playerId, row, column)`: complete the previous play when needed,
then dispatch on whether a first card is currently recorded. -/
def flip (b : Board) (playerId : String) (r c : Nat) :
    Board × FlipRes × List Ev :=
  let b0 := ensurePlayer b playerId
  match b0.players playerId with
  | none => (b0, .fail .Assert, [])
  | some ps =>
    let q : Board × Option Err × List Ev :=
      if ps.matched ∨ (ps.firstCard ≠ none ∧ ps.secondCard ≠ none) then
        finishPreviousPlay b0 playerId
      else (b0, none, [])
    match q.2.1 with
    | some e => (q.1, .fail e, q.2.2)
    | none =>
      match q.1.players playerId with
      | none => (q.1, .fail .Assert, q.2.2)
      | some ps1 =>
        if ps1.firstCard = none then
          let p := flipFirstCard q.1 playerId r c
          (p.1, p.2.1, q.2.2 ++ p.2.2)
        else
          let p := flipSecondCard q.1 playerId r c
          (p.1, p.2.1, q.2.2 ++ p.2.2)

end Board

/-- The constructor: `rows × columns` labels in row-major order, every spot
face-down and unheld (the source reads `cards[cardIndex]` defaulting to the
empty string). -/
def mkBoard (rows columns : Nat) (cards : List String) : Option Board :=
  if cards.length = rows * columns then
    some
      { rows := rows
        columns := columns
        grid := fun r c =>
          { card := some (cards.getD (r * columns + c) "")
            faceUp := false
            controller := none }
        players := fun _ => none
        waitingForCard := fun _ => []
        watchers := [] }
  else none

/-! ### The relabeling operation `map` -/

/-- The row-major list of the card fields of the grid (the nested
`for (const row of this.grid) for (const spot of row)` iteration). -/
def cellsCards (b : Board) : List (Option String) :=
  (List.range b.rows).flatMap (fun r =>
    (List.range b.columns).map (fun c => (b.grid r c).card))

/-- One step of unique-card collection (source lines 200-206): a present,
non-empty label that is not yet collected is appended. -/
def addCard (acc : List String) : Option String → List String
  | none => acc
  | some s => if s.length = 0 then acc else if s ∈ acc then acc else acc ++ [s]

/-- The distinct non-empty labels present on the grid, in first-appearance
(row-major) order - the iteration order of the `Set` in the source. -/
def collectCards (b : Board) : List String := (cellsCards b).foldl addCard []

/-- The sequential `await f(card)` loop (source lines 208-212): the first
failure of `f` propagates; on success, the association list of replacements
keyed by collected label, in collection order. -/
def computeReplacements (f : String → Except String String) :
    List String → Except String (List (String × String))
  | [] => .ok []
  | x :: xs =>
    match f x with
    | .error e => .error e
    | .ok y =>
      match computeReplacements f xs with
      | .error e => .error e
      | .ok rest => .ok ((x, y) :: rest)

/-- Lookup in the replacement list (`replacements.get(spot.card)`). -/
def lookupRep (reps : List (String × String)) (s : String) : Option String :=
  match reps with
  | [] => none
  | kv :: rest => if kv.1 = s then some kv.2 else lookupRep rest s

/-- The per-spot apply step (source lines 216-225): a present, non-empty
card is rewritten to its replacement when one exists and differs. -/
def applySpot (reps : List (String × String)) (spot : Spot) : Spot :=
  match spot.card with
  | none => spot
  | some s =>
    if s.length = 0 then spot
    else
      match lookupRep reps s with
      | none => spot
      | some y => if y = s then spot else { spot with card := some y }

/-- The `changed` flag of the apply loop: true iff some in-bounds spot gets
assigned a different card. -/
def mapChanged (b : Board) (reps : List (String × String)) : Bool :=
  (List.range b.rows).any (fun r =>
    (List.range b.columns).any (fun c =>
      applySpot reps (b.grid r c) != b.grid r c))

/-- The apply loop (source lines 215-226) as a grid transformation: every
in-bounds spot is rewritten through `applySpot`. -/
def mapApply (b : Board) (reps : List (String × String)) : Board :=
  { b with grid := fun r c =>
      (if r < b.rows ∧ c < b.columns then applySpot reps (b.grid r c)
       else b.grid r c) }

/-- Operation `map(playerId, f)`: collect the distinct labels, run `f` on each exactly
once (a failure propagates with nothing applied), then apply all the
replacements in one step and notify watchers when anything changed. -/
def Board.map (b : Board) (playerId : String) (f : String → Except String String) :
    Board × Except String String × List Ev :=
  let b0 := Board.ensurePlayer b playerId
  match computeReplacements f (collectCards b0) with
  | .error e => (b0, .error e, [])
  | .ok reps =>
    let p : Board × List Ev :=
      if mapChanged b0 reps then Board.notifyWatchers (mapApply b0 reps)
      else (mapApply b0 reps, [])
    (p.1, .ok (Board.boardStateFor p.1 playerId), p.2)

/-! ### Spec-side definitions (for the renderer refinement claim) -/

/-- Modelled from the spec (§4.2): the cell line is `none` for a spot with
no card (per §4.5 an empty label counts as no card), `down` when not
face-up, `my <card>` when face-up and held by the caller, `up <card>`
otherwise. -/
def specCellLine (spot : Spot) (playerId : String) : String :=
  if noCard spot.card then "none"
  else if spot.faceUp = false then "down"
  else if spot.controller = some playerId then "my " ++ spot.card.getD ""
  else "up " ++ spot.card.getD ""

/-- Modelled from the spec (§4.2): the rendering as a list of lines - the
`<rows>x<columns>` header followed by one line per cell in row-major order. -/
def renderLines (b : Board) (playerId : String) : List String :=
  (toString b.rows ++ "x" ++ toString b.columns) ::
    (List.range b.rows).flatMap (fun r =>
      (List.range b.columns).map (fun c => specCellLine (b.grid r c) playerId))

/-! ### Repeated release events (for the FIFO claim) -/

/-- Apply `notifyCardAvailable` to cell `(r, c)` a total of `n` times,
concatenating the wake traces. -/
def notifyN (b : Board) (r c : Nat) : Nat → Board × List Ev
  | 0 => (b, [])
  | n + 1 =>
    let p := Board.notifyCardAvailable b r c
    let q := notifyN p.1 r c n
    (q.1, p.2 ++ q.2)

/-! ### Reachable states and the spot invariant -/

/-- Invariants I4/I5 of one spot: a removed spot (`card = null`) is
face-down and unheld, and a held spot is face-up with a present card. -/
def SpotInv (s : Spot) : Prop :=
  (s.card = none → s.faceUp = false ∧ s.controller = none) ∧
  (s.controller ≠ none → s.faceUp = true ∧ s.card ≠ none)

instance (s : Spot) : Decidable (SpotInv s) := by
  unfold SpotInv
  infer_instance

/-- The spot invariant on every in-bounds spot. -/
def BoardInv (b : Board) : Prop :=
  ∀ r c, r < b.rows → c < b.columns → SpotInv (b.grid r c)

/-- One externally triggered transition of the board: a `look`, a `flip`
(including the enqueue step of a suspended first flip), the continuation of
a woken first flip (its cell was bounds-checked when it suspended), a `map`
with an arbitrary relabeling function, or a `watch` registration. -/
inductive Step : Board → Board → Prop
  | look (b : Board) (pid : String) : Step b (Board.look b pid).2
  | flip (b : Board) (pid : String) (r c : Nat) : Step b (Board.flip b pid r c).1
  | resume (b : Board) (pid : String) (r c : Nat) (hr : r < b.rows)
      (hc : c < b.columns) : Step b (Board.flipFirstResume b pid r c).1
  | mapf (b : Board) (pid : String) (f : String → Except String String) :
      Step b (Board.map b pid f).1
  | watch (b : Board) (pid : String) : Step b (Board.watch b pid)

/-- The boards reachable from a constructed board through the operations. -/
inductive Reachable : Board → Prop
  | init (rows columns : Nat) (cards : List String) (b : Board)
      (h : mkBoard rows columns cards = some b) : Reachable b
  | step (b b2 : Board) (hb : Reachable b) (hs : Step b b2) : Reachable b2

/-! ### Concrete boards for witnesses and counterexamples -/

/-- The 1x2 board with cards `A B` as built by the constructor. -/
def demoAB : Board :=
  { rows := 1
    columns := 2
    grid := fun r c =>
      { card := some (["A", "B"].getD (r * 2 + c) "")
        faceUp := false
        controller := none }
    players := fun _ => none
    waitingForCard := fun _ => []
    watchers := [] }

/-- The 1x3 board with cards `A <empty> B`: the middle spot has an empty
label and hence no card from the outset. -/
def demoA3 : Board :=
  { rows := 1
    columns := 3
    grid := fun r c =>
      { card := some (["A", "", "B"].getD (r * 3 + c) "")
        faceUp := false
        controller := none }
    players := fun _ => none
    waitingForCard := fun _ => []
    watchers := [] }

/-- The 2x2 board with cards `A B / A B`. -/
def demoABAB : Board :=
  { rows := 2
    columns := 2
    grid := fun r c =>
      { card := some (["A", "B", "A", "B"].getD (r * 2 + c) "")
        faceUp := false
        controller := none }
    players := fun _ => none
    waitingForCard := fun _ => []
    watchers := [] }

/-- The 2x2 board with cards `A A / B B`. -/
def demoAABB : Board :=
  { rows := 2
    columns := 2
    grid := fun r c =>
      { card := some (["A", "A", "B", "B"].getD (r * 2 + c) "")
        faceUp := false
        controller := none }
    players := fun _ => none
    waitingForCard := fun _ => []
    watchers := [] }

/-- Board `demoAB` after player `P` flipped `(0,0)`: `P` is in S1 holding `(0,0)`. -/
def s1AB : Board := (Board.flip demoAB "P" 0 0).1

/-- Board `demoA3` after player `P` flipped `(0,0)`: `P` is in S1 holding `(0,0)`. -/
def s1A3 : Board := (Board.flip demoA3 "P" 0 0).1

/-- Board `demoABAB` after `P1` missed (flipped `(0,0)` then `(0,1)`), `P2` took
`(1,0)`, and `W` registered as a watcher: `P2` is in S1, `(0,0)` is face-up,
unheld, and matches the first card of `P2`. -/
def c6scn : Board :=
  Board.watch
    (Board.flip (Board.flip (Board.flip demoABAB "P1" 0 0).1 "P1" 0 1).1 "P2" 1 0).1 "W"

/-- Board `demoAABB` after `P` matched `(0,0)` and `(0,1)` (both `A`), with `Q`
and `R` queued as waiters on the two held cells: `P` is in S2-match. -/
def c4scn : Board :=
  Board.waitForCard
    (Board.waitForCard (Board.flip (Board.flip demoAABB "P" 0 0).1 "P" 0 1).1 "Q" 0 0)
    "R" 0 1

/-- A waiter queue demo: `P2` then `P3` queued on cell `(0,0)` of `demoAB`. -/
def c7scn : Board := Board.waitForCard (Board.waitForCard demoAB "P2" 0 0) "P3" 0 0

/-! ### Basic field lemmas for the state helpers -/

@[simp] theorem updSpot_grid (b : Board) (r c : Nat) (s : Spot) (r2 c2 : Nat) :
    (updSpot b r c s).grid r2 c2 = if r2 = r ∧ c2 = c then s else b.grid r2 c2 := rfl

@[simp] theorem updSpot_rows (b : Board) (r c : Nat) (s : Spot) :
    (updSpot b r c s).rows = b.rows := rfl

@[simp] theorem updSpot_columns (b : Board) (r c : Nat) (s : Spot) :
    (updSpot b r c s).columns = b.columns := rfl

@[simp] theorem updSpot_players (b : Board) (r c : Nat) (s : Spot) :
    (updSpot b r c s).players = b.players := rfl

@[simp] theorem updSpot_waitingForCard (b : Board) (r c : Nat) (s : Spot) :
    (updSpot b r c s).waitingForCard = b.waitingForCard := rfl

@[simp] theorem updSpot_watchers (b : Board) (r c : Nat) (s : Spot) :
    (updSpot b r c s).watchers = b.watchers := rfl

@[simp] theorem setPS_players (b : Board) (pid : String) (ps : PlayerState) (q : String) :
    (setPS b pid ps).players q = if q = pid then some ps else b.players q := rfl

@[simp] theorem setPS_grid (b : Board) (pid : String) (ps : PlayerState) :
    (setPS b pid ps).grid = b.grid := rfl

@[simp] theorem setPS_rows (b : Board) (pid : String) (ps : PlayerState) :
    (setPS b pid ps).rows = b.rows := rfl

@[simp] theorem setPS_columns (b : Board) (pid : String) (ps : PlayerState) :
    (setPS b pid ps).columns = b.columns := rfl

@[simp] theorem setPS_waitingForCard (b : Board) (pid : String) (ps : PlayerState) :
    (setPS b pid ps).waitingForCard = b.waitingForCard := rfl

@[simp] theorem setPS_watchers (b : Board) (pid : String) (ps : PlayerState) :
    (setPS b pid ps).watchers = b.watchers := rfl

@[simp] theorem setQueue_waitingForCard (b : Board) (r c : Nat) (q : List String)
    (k : Nat × Nat) :
    (setQueue b r c q).waitingForCard k = if k = (r, c) then q else b.waitingForCard k := rfl

@[simp] theorem setQueue_grid (b : Board) (r c : Nat) (q : List String) :
    (setQueue b r c q).grid = b.grid := rfl

@[simp] theorem setQueue_rows (b : Board) (r c : Nat) (q : List String) :
    (setQueue b r c q).rows = b.rows := rfl

@[simp] theorem setQueue_columns (b : Board) (r c : Nat) (q : List String) :
    (setQueue b r c q).columns = b.columns := rfl

@[simp] theorem setQueue_players (b : Board) (r c : Nat) (q : List String) :
    (setQueue b r c q).players = b.players := rfl

@[simp] theorem setQueue_watchers (b : Board) (r c : Nat) (q : List String) :
    (setQueue b r c q).watchers = b.watchers := rfl

namespace Board

@[simp] theorem notifyWatchers_board (b : Board) :
    (notifyWatchers b).1 = { b with watchers := [] } := rfl

@[simp] theorem notifyWatchers_events (b : Board) :
    (notifyWatchers b).2 = [Ev.notify b.watchers] := rfl

theorem notifyCardAvailable_nil (b : Board) (r c : Nat)
    (h : b.waitingForCard (r, c) = []) :
    notifyCardAvailable b r c = (b, []) := by
  unfold notifyCardAvailable
  split
  · rfl
  · rename_i w rest hw
    rw [h] at hw
    cases hw

theorem notifyCardAvailable_cons (b : Board) (r c : Nat) (w : String)
    (rest : List String) (h : b.waitingForCard (r, c) = w :: rest) :
    notifyCardAvailable b r c = (setQueue b r c rest, [Ev.wake r c w]) := by
  unfold notifyCardAvailable
  split
  · rename_i hw
    rw [h] at hw
    cases hw
  · rename_i w2 rest2 hw
    rw [h] at hw
    cases hw
    rfl

theorem ensurePlayer_of_mem (b : Board) (pid : String) (ps : PlayerState)
    (h : b.players pid = some ps) : ensurePlayer b pid = b := by
  unfold ensurePlayer
  rw [h]

@[simp] theorem ensurePlayer_grid (b : Board) (pid : String) :
    (ensurePlayer b pid).grid = b.grid := by
  unfold ensurePlayer
  split <;> rfl

@[simp] theorem ensurePlayer_rows (b : Board) (pid : String) :
    (ensurePlayer b pid).rows = b.rows := by
  unfold ensurePlayer
  split <;> rfl

@[simp] theorem ensurePlayer_columns (b : Board) (pid : String) :
    (ensurePlayer b pid).columns = b.columns := by
  unfold ensurePlayer
  split <;> rfl

@[simp] theorem ensurePlayer_waitingForCard (b : Board) (pid : String) :
    (ensurePlayer b pid).waitingForCard = b.waitingForCard := by
  unfold ensurePlayer
  split <;> rfl

@[simp] theorem ensurePlayer_watchers (b : Board) (pid : String) :
    (ensurePlayer b pid).watchers = b.watchers := by
  unfold ensurePlayer
  split <;> rfl

theorem ensurePlayer_players_self (b : Board) (pid : String) :
    ∃ ps, (ensurePlayer b pid).players pid = some ps := by
  unfold ensurePlayer
  split
  · rename_i ps h
    exact ⟨ps, h⟩
  · refine ⟨{ firstCard := none, secondCard := none, matched := false }, ?_⟩
    simp

end Board

/-! ### The waiter queue is strictly FIFO (claim C7) -/

theorem notifyN_trace (r c : Nat) :
    ∀ (n : Nat) (b : Board),
      (notifyN b r c n).2 = ((b.waitingForCard (r, c)).take n).map (Ev.wake r c) ∧
      (notifyN b r c n).1.waitingForCard (r, c) = (b.waitingForCard (r, c)).drop n := by
  intro n
  induction n with
  | zero => intro b; simp [notifyN]
  | succ n ih =>
    intro b
    cases hq : b.waitingForCard (r, c) with
    | nil =>
      have hb := Board.notifyCardAvailable_nil b r c hq
      simp [notifyN, hb, hq, ih b]
    | cons w rest =>
      have hb := Board.notifyCardAvailable_cons b r c w rest hq
      have ihb := ih (setQueue b r c rest)
      simp at ihb
      simp [notifyN, hb, hq, ihb.1, ihb.2]

theorem getD_map_take (l : List String) (n i : Nat) (g : String → Ev)
    (hn : i < n) (hl : i < l.length) :
    ((l.take n).map g).getD i (Ev.notify []) = g (l.getD i "") := by
  have hlt : i < (l.take n).length := by
    simp [List.length_take]
    exact ⟨hn, hl⟩
  rw [List.getD_eq_getElem?_getD, List.getElem?_map]
  rw [List.getElem?_eq_getElem hlt]
  rw [List.getElem_take]
  rw [List.getD_eq_getElem?_getD, List.getElem?_eq_getElem hl]
  rfl

/-- C7: per cell the waiter queue is strictly FIFO.  (1) `waitForCard`
appends the caller at the tail, so enqueue order is queue order; (2) a
release event (`notifyCardAvailable`) on a nonempty queue wakes exactly one
waiter, the oldest, and removes only that entry; (3) `n` release events wake
exactly the first `n` queued waiters in queue order; (4) hence if waiter A
(position `i`) enqueued before waiter B (position `j`, `i < j`), the wake
event of A occurs strictly earlier in the trace than that of B. -/
theorem C7_waitQueue_fifo :
    (∀ (b : Board) (pid : String) (r c : Nat),
        (Board.waitForCard b pid r c).waitingForCard (r, c)
          = b.waitingForCard (r, c) ++ [pid]) ∧
    (∀ (b : Board) (r c : Nat) (w : String) (rest : List String),
        b.waitingForCard (r, c) = w :: rest →
          Board.notifyCardAvailable b r c = (setQueue b r c rest, [Ev.wake r c w])) ∧
    (∀ (b : Board) (r c n : Nat),
        (notifyN b r c n).2 = ((b.waitingForCard (r, c)).take n).map (Ev.wake r c)) ∧
    (∀ (b : Board) (r c n i j : Nat), i < j → j < n →
        j < (b.waitingForCard (r, c)).length →
          (notifyN b r c n).2.getD i (Ev.notify [])
              = Ev.wake r c ((b.waitingForCard (r, c)).getD i "") ∧
            (notifyN b r c n).2.getD j (Ev.notify [])
              = Ev.wake r c ((b.waitingForCard (r, c)).getD j "")) := by
  refine ⟨?_, ?_, ?_, ?_⟩
  · intro b pid r c
    simp [Board.waitForCard]
  · intro b r c w rest h
    exact Board.notifyCardAvailable_cons b r c w rest h
  · intro b r c n
    exact (notifyN_trace r c n b).1
  · intro b r c n i j hij hjn hjl
    rw [(notifyN_trace r c n b).1]
    constructor
    · exact getD_map_take _ n i _ (Nat.lt_trans hij hjn) (Nat.lt_trans hij hjl)
    · exact getD_map_take _ n j _ hjn hjl

/-- Witness for C7 on a queue holding `P2` then `P3`: one release wakes
exactly `P2`; two releases wake `P2` at trace position 0 and `P3` at 1. -/
theorem C7_waitQueue_fifo_witness :
    Board.notifyCardAvailable c7scn 0 0
        = (setQueue c7scn 0 0 ["P3"], [Ev.wake 0 0 "P2"]) ∧
      (notifyN c7scn 0 0 2).2.getD 0 (Ev.notify []) = Ev.wake 0 0 "P2" ∧
      (notifyN c7scn 0 0 2).2.getD 1 (Ev.notify []) = Ev.wake 0 0 "P3" := by
  have hq : c7scn.waitingForCard (0, 0) = ["P2", "P3"] := rfl
  refine ⟨C7_waitQueue_fifo.2.1 c7scn 0 0 "P2" ["P3"] hq, ?_, ?_⟩
  · exact (C7_waitQueue_fifo.2.2.2 c7scn 0 0 2 0 1 (by decide) (by decide)
      (by rw [hq]; decide)).1
  · exact (C7_waitQueue_fifo.2.2.2 c7scn 0 0 2 0 1 (by decide) (by decide)
      (by rw [hq]; decide)).2

/-! ### The renderer (claim C9) -/

theorem strFoldl_shift (l : List String) :
    ∀ acc : String, List.foldl (fun a s => a ++ s) acc l
      = acc ++ List.foldl (fun a s => a ++ s) "" l := by
  induction l with
  | nil => intro acc; exact (String.append_empty acc).symm
  | cons x xs ih =>
    intro acc
    simp only [List.foldl_cons]
    rw [ih (acc ++ x), ih ("" ++ x), String.empty_append, String.append_assoc]

theorem join_cons (x : String) (xs : List String) :
    String.join (x :: xs) = x ++ String.join xs := by
  show List.foldl (fun a s => a ++ s) "" (x :: xs) = _
  simp only [List.foldl_cons]
  rw [String.empty_append, strFoldl_shift xs x]
  rfl

theorem join_append (l1 l2 : List String) :
    String.join (l1 ++ l2) = String.join l1 ++ String.join l2 := by
  induction l1 with
  | nil =>
    show String.join l2 = String.join [] ++ String.join l2
    rw [show String.join ([] : List String) = "" from rfl, String.empty_append]
  | cons x xs ih =>
    simp only [List.cons_append, join_cons, ih, String.append_assoc]

theorem strFoldl_eq_join (l : List α) (f : α → String) :
    ∀ acc : String, l.foldl (fun a x => a ++ f x) acc
      = acc ++ String.join (l.map f) := by
  induction l with
  | nil => intro acc; exact (String.append_empty acc).symm
  | cons x xs ih =>
    intro acc
    simp only [List.foldl_cons, List.map_cons, join_cons]
    rw [ih (acc ++ f x), String.append_assoc]

theorem join_flatMap (l : List α) (h : α → List String) :
    String.join (l.flatMap h) = String.join (l.map (fun x => String.join (h x))) := by
  induction l with
  | nil => rfl
  | cons x xs ih =>
    simp only [List.flatMap_cons, List.map_cons, join_cons, join_append, ih]

theorem cellLine_eq_specCellLine (spot : Spot) (pid : String) :
    Board.cellLine spot pid = specCellLine spot pid := by
  unfold Board.cellLine specCellLine noCard
  cases hc : spot.card with
  | none => simp
  | some s =>
    by_cases hl : s.length = 0
    · simp [hl]
    · cases hf : spot.faceUp <;> simp [hl, hf]

theorem boardStateFor_eq_join (b : Board) (pid : String) :
    Board.boardStateFor b pid
      = String.join ((renderLines b pid).map (fun l => l ++ "\n")) := by
  unfold Board.boardStateFor renderLines
  have hinner : ∀ (acc : String) (r : Nat),
      (List.range b.columns).foldl
          (fun acc2 c => acc2 ++ Board.cellLine (b.grid r c) pid ++ "\n") acc
        = acc ++ String.join ((List.range b.columns).map
            (fun c => specCellLine (b.grid r c) pid ++ "\n")) := by
    intro acc r
    have hbody : (fun (acc2 : String) (c : Nat) =>
          acc2 ++ Board.cellLine (b.grid r c) pid ++ "\n")
        = fun (acc2 : String) (c : Nat) =>
          acc2 ++ (Board.cellLine (b.grid r c) pid ++ "\n") := by
      funext a x
      rw [String.append_assoc]
    rw [hbody, strFoldl_eq_join (List.range b.columns)
      (fun c => Board.cellLine (b.grid r c) pid ++ "\n") acc]
    have hfun : (fun c => Board.cellLine (b.grid r c) pid ++ "\n")
        = fun c => specCellLine (b.grid r c) pid ++ "\n" := by
      funext x
      rw [cellLine_eq_specCellLine]
    rw [hfun]
  have houter : (List.range b.rows).foldl
      (fun acc r => (List.range b.columns).foldl
        (fun acc2 c => acc2 ++ Board.cellLine (b.grid r c) pid ++ "\n") acc)
      (toString b.rows ++ "x" ++ toString b.columns ++ "\n")
      = (toString b.rows ++ "x" ++ toString b.columns ++ "\n")
        ++ String.join ((List.range b.rows).map (fun r =>
             String.join ((List.range b.columns).map
               (fun c => specCellLine (b.grid r c) pid ++ "\n")))) := by
    have hbody : (fun (acc : String) (r : Nat) => (List.range b.columns).foldl
          (fun acc2 c => acc2 ++ Board.cellLine (b.grid r c) pid ++ "\n") acc)
        = fun (acc : String) (r : Nat) => acc ++ String.join ((List.range b.columns).map
            (fun c => specCellLine (b.grid r c) pid ++ "\n")) := by
      funext acc r
      exact hinner acc r
    rw [hbody]
    exact strFoldl_eq_join (List.range b.rows)
      (fun r => String.join ((List.range b.columns).map
        (fun c => specCellLine (b.grid r c) pid ++ "\n"))) _
  rw [houter]
  simp only [List.map_cons, join_cons, List.map_flatMap, join_flatMap, List.map_map]
  rfl

theorem length_flat_spec (b : Board) (pid : String) (n : Nat) :
    ((List.range n).flatMap (fun r =>
      (List.range b.columns).map (fun c => specCellLine (b.grid r c) pid))).length
      = n * b.columns := by
  induction n with
  | zero => simp
  | succ n ih =>
    rw [List.range_succ, List.flatMap_append, List.length_append, ih]
    simp [Nat.succ_mul]

theorem getD_map_range (m c : Nat) (hc : c < m) (h : Nat → String) :
    ((List.range m).map h).getD c "" = h c := by
  rw [List.getD_eq_getElem?_getD, List.getElem?_map, List.getElem?_range hc]
  rfl

theorem getD_flat_render (b : Board) (pid : String) (r c : Nat)
    (hr : r < b.rows) (hc : c < b.columns) :
    ((List.range b.rows).flatMap (fun x =>
      (List.range b.columns).map (fun y => specCellLine (b.grid x y) pid))).getD
        (r * b.columns + c) ""
      = specCellLine (b.grid r c) pid := by
  have key : ∀ n, r < n →
      ((List.range n).flatMap (fun x =>
        (List.range b.columns).map (fun y => specCellLine (b.grid x y) pid))).getD
          (r * b.columns + c) ""
        = specCellLine (b.grid r c) pid := by
    intro n
    induction n with
    | zero => intro h; cases h
    | succ n ih =>
      intro hrn
      rw [List.range_succ, List.flatMap_append]
      have hlen := length_flat_spec b pid n
      rcases Nat.lt_or_ge r n with hlt | hge
      · have hidx : r * b.columns + c < n * b.columns := by
          calc r * b.columns + c < r * b.columns + b.columns := by
                exact Nat.add_lt_add_left hc _
            _ = (r + 1) * b.columns := by rw [Nat.succ_mul]
            _ ≤ n * b.columns := Nat.mul_le_mul_right _ hlt
        rw [List.getD_append _ _ _ _ (by rw [hlen]; exact hidx)]
        exact ih hlt
      · have hre : r = n := Nat.le_antisymm (Nat.lt_succ_iff.mp hrn) hge
        subst hre
        rw [List.getD_append_right _ _ _ _ (by rw [hlen]; exact Nat.le_add_right _ _)]
        rw [hlen]
        simp only [List.flatMap_cons, List.flatMap_nil, List.append_nil]
        rw [Nat.add_sub_cancel_left]
        exact getD_map_range _ _ hc _
  exact key b.rows hr

/-- C9: the rendering of `boardStateFor` is the dimension header followed by
exactly `rows x columns` cell lines in row-major order, each line terminated
by a newline (`rows x columns + 1` newline-terminated lines in total); the
cell line at row-major position `(r, c)` is `none` / `down` / `my <card>` /
`up <card>` per the conditions of the spec; and `look` mutates no board state
beyond idempotently registering the calling player (grid, dimensions,
waiter queues and watchers are untouched, and a board whose caller is
already registered is returned completely unchanged). -/
theorem C9_renderer :
    (∀ (b : Board) (pid : String),
        Board.boardStateFor b pid
          = String.join ((renderLines b pid).map (fun l => l ++ "\n"))) ∧
    (∀ (b : Board) (pid : String),
        (renderLines b pid).length = b.rows * b.columns + 1) ∧
    (∀ (b : Board) (pid : String) (r c : Nat), r < b.rows → c < b.columns →
        (renderLines b pid).getD (1 + (r * b.columns + c)) ""
          = specCellLine (b.grid r c) pid ∧
        Board.cellLine (b.grid r c) pid = specCellLine (b.grid r c) pid) ∧
    (∀ (b : Board) (pid : String),
        (Board.look b pid).1 = Board.boardStateFor (Board.ensurePlayer b pid) pid ∧
        (Board.look b pid).2.grid = b.grid ∧
        (Board.look b pid).2.rows = b.rows ∧
        (Board.look b pid).2.columns = b.columns ∧
        (Board.look b pid).2.waitingForCard = b.waitingForCard ∧
        (Board.look b pid).2.watchers = b.watchers) ∧
    (∀ (b : Board) (pid : String) (ps : PlayerState),
        b.players pid = some ps → (Board.look b pid).2 = b) := by
  refine ⟨boardStateFor_eq_join, ?_, ?_, ?_, ?_⟩
  · intro b pid
    unfold renderLines
    rw [List.length_cons, length_flat_spec b pid b.rows]
  · intro b pid r c hr hc
    refine ⟨?_, cellLine_eq_specCellLine _ _⟩
    unfold renderLines
    rw [Nat.add_comm 1 (r * b.columns + c), List.getD_cons_succ]
    exact getD_flat_render b pid r c hr hc
  · intro b pid
    exact ⟨rfl, by simp [Board.look], by simp [Board.look], by simp [Board.look],
      by simp [Board.look], by simp [Board.look]⟩
  · intro b pid ps hps
    show (Board.ensurePlayer b pid) = b
    exact Board.ensurePlayer_of_mem b pid ps hps

/-! ### The relabeler `map` (claims C2, C3, C10) -/

theorem cellsCards_ensurePlayer (b : Board) (pid : String) :
    cellsCards (Board.ensurePlayer b pid) = cellsCards b := by
  unfold cellsCards
  rw [Board.ensurePlayer_rows, Board.ensurePlayer_columns, Board.ensurePlayer_grid]

theorem collectCards_ensurePlayer (b : Board) (pid : String) :
    collectCards (Board.ensurePlayer b pid) = collectCards b := by
  unfold collectCards
  rw [cellsCards_ensurePlayer]

theorem computeReplacements_error (f : String → Except String String)
    (l : List String) (x : String) (e : String)
    (hx : x ∈ l) (hfx : f x = .error e) :
    ∃ e2, computeReplacements f l = .error e2 ∧ ∃ y ∈ l, f y = .error e2 := by
  induction l with
  | nil => cases hx
  | cons a as ih =>
    unfold computeReplacements
    cases hfa : f a with
    | error ea =>
      exact ⟨ea, rfl, a, List.mem_cons_self a as, hfa⟩
    | ok ya =>
      have hxas : x ∈ as := by
        rcases List.mem_cons.mp hx with h | h
        · subst h
          rw [hfa] at hfx
          cases hfx
        · exact h
      rcases ih hxas with ⟨e2, hcr, y, hy, hfy⟩
      rw [hcr]
      exact ⟨e2, rfl, y, List.mem_cons_of_mem a hy, hfy⟩

theorem computeReplacements_ok (f : String → Except String String) :
    ∀ (l : List String) (reps : List (String × String)),
      computeReplacements f l = .ok reps →
        reps.map Prod.fst = l ∧
        ∀ x ∈ l, ∃ y, lookupRep reps x = some y ∧ f x = .ok y := by
  intro l
  induction l with
  | nil =>
    intro reps h
    cases h
    exact ⟨rfl, by intro x hx; cases hx⟩
  | cons a as ih =>
    intro reps h
    unfold computeReplacements at h
    cases hfa : f a with
    | error ea => rw [hfa] at h; cases h
    | ok ya =>
      rw [hfa] at h
      cases hcr : computeReplacements f as with
      | error e2 => rw [hcr] at h; cases h
      | ok rest =>
        rw [hcr] at h
        cases h
        rcases ih rest hcr with ⟨hkeys, hlook⟩
        refine ⟨by simp [hkeys], ?_⟩
        intro x hx
        rcases List.mem_cons.mp hx with heq | hmem
        · subst heq
          exact ⟨ya, by simp [lookupRep], hfa⟩
        · rcases hlook x hmem with ⟨y, hly, hfy⟩
          by_cases hax : a = x
          · subst hax
            refine ⟨ya, by simp [lookupRep], hfa⟩
          · exact ⟨y, by simp [lookupRep, hax, hly], hfy⟩

theorem mem_foldl_addCard :
    ∀ (l : List (Option String)) (acc : List String) (x : String),
      x ∈ l.foldl addCard acc ↔ x ∈ acc ∨ (some x ∈ l ∧ x.length ≠ 0) := by
  intro l
  induction l with
  | nil => intro acc x; simp
  | cons a as ih =>
    intro acc x
    simp only [List.foldl_cons]
    rw [ih]
    cases a with
    | none =>
      show x ∈ acc ∨ _ ↔ _
      simp [addCard]
    | some s =>
      by_cases hs : s.length = 0
      · have ha : addCard acc (some s) = acc := by simp [addCard, hs]
        rw [ha]
        constructor
        · rintro (h | ⟨hm, hl⟩)
          · exact Or.inl h
          · exact Or.inr ⟨List.mem_cons_of_mem _ hm, hl⟩
        · rintro (h | ⟨hm, hl⟩)
          · exact Or.inl h
          · rcases List.mem_cons.mp hm with heq | h2
            · exact absurd (by rw [Option.some.injEq] at heq; rw [heq]; exact hs) hl
            · exact Or.inr ⟨h2, hl⟩
      · by_cases hmem : s ∈ acc
        · have ha : addCard acc (some s) = acc := by simp [addCard, hs, hmem]
          rw [ha]
          constructor
          · rintro (h | ⟨hm, hl⟩)
            · exact Or.inl h
            · exact Or.inr ⟨List.mem_cons_of_mem _ hm, hl⟩
          · rintro (h | ⟨hm, hl⟩)
            · exact Or.inl h
            · rcases List.mem_cons.mp hm with heq | h2
              · rw [Option.some.injEq] at heq
                rw [heq]
                exact Or.inl hmem
              · exact Or.inr ⟨h2, hl⟩
        · have ha : addCard acc (some s) = acc ++ [s] := by simp [addCard, hs, hmem]
          rw [ha]
          constructor
          · rintro (h | ⟨hm, hl⟩)
            · rcases List.mem_append.mp h with h2 | h2
              · exact Or.inl h2
              · have hxs : x = s := by simpa using h2
                rw [hxs]
                exact Or.inr ⟨List.mem_cons_self _ _, hs⟩
            · exact Or.inr ⟨List.mem_cons_of_mem _ hm, hl⟩
          · rintro (h | ⟨hm, hl⟩)
            · exact Or.inl (List.mem_append.mpr (Or.inl h))
            · rcases List.mem_cons.mp hm with heq | h2
              · rw [Option.some.injEq] at heq
                rw [heq]
                exact Or.inl (List.mem_append.mpr (Or.inr (by simp)))
              · exact Or.inr ⟨h2, hl⟩

theorem nodup_foldl_addCard :
    ∀ (l : List (Option String)) (acc : List String),
      acc.Nodup → (l.foldl addCard acc).Nodup := by
  intro l
  induction l with
  | nil => intro acc h; exact h
  | cons a as ih =>
    intro acc h
    simp only [List.foldl_cons]
    apply ih
    cases a with
    | none => exact h
    | some s =>
      unfold addCard
      by_cases hs : s.length = 0
      · simp [hs, h]
      · by_cases hmem : s ∈ acc
        · simp [hs, hmem, h]
        · simp only [hs, hmem, if_false]
          rw [List.nodup_append]
          exact ⟨h, List.nodup_singleton s, by
            intro y hy hys
            have : y = s := by simpa using hys
            rw [this] at hy
            exact hmem hy⟩

theorem mem_collectCards (b : Board) (x : String) :
    x ∈ collectCards b ↔
      (∃ r c, r < b.rows ∧ c < b.columns ∧ (b.grid r c).card = some x)
        ∧ x.length ≠ 0 := by
  unfold collectCards
  rw [mem_foldl_addCard (cellsCards b) [] x]
  simp only [List.not_mem_nil, false_or]
  constructor
  · rintro ⟨hm, hl⟩
    refine ⟨?_, hl⟩
    unfold cellsCards at hm
    rcases List.mem_flatMap.mp hm with ⟨r, hr, hmr⟩
    rcases List.mem_map.mp hmr with ⟨c, hc, hcard⟩
    exact ⟨r, c, List.mem_range.mp hr, List.mem_range.mp hc, hcard⟩
  · rintro ⟨⟨r, c, hr, hc, hcard⟩, hl⟩
    refine ⟨?_, hl⟩
    unfold cellsCards
    apply List.mem_flatMap.mpr
    exact ⟨r, List.mem_range.mpr hr,
      List.mem_map.mpr ⟨c, List.mem_range.mpr hc, hcard⟩⟩

theorem nodup_collectCards (b : Board) : (collectCards b).Nodup :=
  nodup_foldl_addCard (cellsCards b) [] List.nodup_nil

theorem applySpot_faceUp (reps : List (String × String)) (spot : Spot) :
    (applySpot reps spot).faceUp = spot.faceUp := by
  unfold applySpot
  cases spot.card with
  | none => rfl
  | some s =>
    by_cases hs : s.length = 0
    · simp [hs]
    · simp only [hs, if_false]
      cases lookupRep reps s with
      | none => rfl
      | some y =>
        by_cases hyx : y = s
        · simp [hyx]
        · simp [hyx]

theorem applySpot_controller (reps : List (String × String)) (spot : Spot) :
    (applySpot reps spot).controller = spot.controller := by
  unfold applySpot
  cases spot.card with
  | none => rfl
  | some s =>
    by_cases hs : s.length = 0
    · simp [hs]
    · simp only [hs, if_false]
      cases lookupRep reps s with
      | none => rfl
      | some y =>
        by_cases hyx : y = s
        · simp [hyx]
        · simp [hyx]

theorem applySpot_noCard (reps : List (String × String)) (spot : Spot)
    (h : noCard spot.card = true) : applySpot reps spot = spot := by
  unfold applySpot
  cases hc : spot.card with
  | none => rfl
  | some s =>
    rw [hc] at h
    unfold noCard at h
    simp at h
    simp [h]

theorem applySpot_card_some (reps : List (String × String)) (spot : Spot)
    (x y : String) (hc : spot.card = some x) (hx : x.length ≠ 0)
    (hl : lookupRep reps x = some y) : (applySpot reps spot).card = some y := by
  unfold applySpot
  rw [hc]
  simp only [hx, if_false, hl]
  by_cases hyx : y = x
  · simp [hyx, hc]
  · simp [hyx]

theorem map_ok_dest (b : Board) (pid : String)
    (f : String → Except String String) (reps : List (String × String))
    (hr : computeReplacements f (collectCards b) = .ok reps) :
    (Board.map b pid f).2.1
        = .ok (Board.boardStateFor (Board.map b pid f).1 pid) ∧
      (∀ r c, r < b.rows → c < b.columns →
        (Board.map b pid f).1.grid r c = applySpot reps (b.grid r c)) ∧
      (Board.map b pid f).1.rows = b.rows ∧
      (Board.map b pid f).1.columns = b.columns := by
  cases hch : mapChanged (Board.ensurePlayer b pid) reps with
  | false =>
    have key : Board.map b pid f
        = (mapApply (Board.ensurePlayer b pid) reps,
           .ok (Board.boardStateFor (mapApply (Board.ensurePlayer b pid) reps) pid),
           []) := by
      simp only [Board.map, collectCards_ensurePlayer, hr, hch]
      simp
    rw [key]
    refine ⟨rfl, ?_, by simp [mapApply], by simp [mapApply]⟩
    intro r c hrr hcc
    show (if r < (Board.ensurePlayer b pid).rows ∧ c < (Board.ensurePlayer b pid).columns
      then applySpot reps ((Board.ensurePlayer b pid).grid r c)
      else (Board.ensurePlayer b pid).grid r c) = applySpot reps (b.grid r c)
    simp [hrr, hcc]
  | true =>
    have key : Board.map b pid f
        = ({ mapApply (Board.ensurePlayer b pid) reps with watchers := [] },
           .ok (Board.boardStateFor
             { mapApply (Board.ensurePlayer b pid) reps with watchers := [] } pid),
           [Ev.notify (mapApply (Board.ensurePlayer b pid) reps).watchers]) := by
      simp only [Board.map, collectCards_ensurePlayer, hr, hch]
      simp [Board.notifyWatchers]
    rw [key]
    refine ⟨rfl, ?_, by simp [mapApply], by simp [mapApply]⟩
    intro r c hrr hcc
    show (if r < (Board.ensurePlayer b pid).rows ∧ c < (Board.ensurePlayer b pid).columns
      then applySpot reps ((Board.ensurePlayer b pid).grid r c)
      else (Board.ensurePlayer b pid).grid r c) = applySpot reps (b.grid r c)
    simp [hrr, hcc]

/-- C2: if the user-supplied `f` fails on any collected label, `map`
surfaces a failure of `f` to the caller and applies nothing: the grid (every
spot, hence every card field), the dimensions, the waiter queues and the
watcher set are all unchanged; no watcher notification is emitted. -/
theorem C2_map_failure_atomic (b : Board) (pid : String)
    (f : String → Except String String) (x e : String)
    (hx : x ∈ collectCards b) (hfx : f x = .error e) :
    ∃ e2, (Board.map b pid f).2.1 = .error e2 ∧
      (∃ y ∈ collectCards b, f y = .error e2) ∧
      (Board.map b pid f).2.2 = [] ∧
      (Board.map b pid f).1.grid = b.grid ∧
      (Board.map b pid f).1.rows = b.rows ∧
      (Board.map b pid f).1.columns = b.columns ∧
      (Board.map b pid f).1.waitingForCard = b.waitingForCard ∧
      (Board.map b pid f).1.watchers = b.watchers := by
  rcases computeReplacements_error f (collectCards b) x e hx hfx with
    ⟨e2, hcr, y, hy, hfy⟩
  have key : Board.map b pid f = (Board.ensurePlayer b pid, .error e2, []) := by
    simp only [Board.map, collectCards_ensurePlayer, hcr]
  rw [key]
  exact ⟨e2, rfl, ⟨y, hy, hfy⟩, rfl, by simp, by simp, by simp, by simp, by simp⟩

/-- Witness for C2: on the 2x2 `A B / A B` board with an `f` that fails on
`A`, `map` surfaces the failure and changes no spot. -/
theorem C2_map_failure_atomic_witness :
    ∃ e2, (Board.map demoABAB "P"
        (fun s => if s = "A" then .error "boom" else .ok s)).2.1 = .error e2 ∧
      (∃ y ∈ collectCards demoABAB,
        (fun s => if s = "A" then Except.error "boom" else Except.ok s) y
          = .error e2) ∧
      (Board.map demoABAB "P"
        (fun s => if s = "A" then .error "boom" else .ok s)).2.2 = [] ∧
      (Board.map demoABAB "P"
        (fun s => if s = "A" then .error "boom" else .ok s)).1.grid = demoABAB.grid ∧
      (Board.map demoABAB "P"
        (fun s => if s = "A" then .error "boom" else .ok s)).1.rows = demoABAB.rows ∧
      (Board.map demoABAB "P"
        (fun s => if s = "A" then .error "boom" else .ok s)).1.columns
        = demoABAB.columns ∧
      (Board.map demoABAB "P"
        (fun s => if s = "A" then .error "boom" else .ok s)).1.waitingForCard
        = demoABAB.waitingForCard ∧
      (Board.map demoABAB "P"
        (fun s => if s = "A" then .error "boom" else .ok s)).1.watchers
        = demoABAB.watchers :=
  C2_map_failure_atomic demoABAB "P"
    (fun s => if s = "A" then .error "boom" else .ok s) "A" "boom"
    (by decide) (by simp)

/-- C3: for a successful `map`, `f` is evaluated on exactly the
duplicate-free list of distinct non-empty labels present at collection time
(the replacement list is keyed by precisely that list); every in-bounds spot
whose card is a present non-empty label `x` is rewritten to the value of
`f x`; removed or empty-labelled spots are untouched; `faceUp` and `holder`
are untouched everywhere; and two spots bearing the same label before the
apply step bear the same label after it (invariant I8). -/
theorem C3_map_success (b : Board) (pid : String)
    (f : String → Except String String) (reps : List (String × String))
    (hr : computeReplacements f (collectCards b) = .ok reps) :
    (Board.map b pid f).2.1
        = .ok (Board.boardStateFor (Board.map b pid f).1 pid) ∧
      reps.map Prod.fst = collectCards b ∧
      (collectCards b).Nodup ∧
      (∀ x, x ∈ collectCards b ↔
        (∃ r c, r < b.rows ∧ c < b.columns ∧ (b.grid r c).card = some x)
          ∧ x.length ≠ 0) ∧
      (∀ r c, r < b.rows → c < b.columns →
        (∀ x y, (b.grid r c).card = some x → x.length ≠ 0 → f x = .ok y →
          ((Board.map b pid f).1.grid r c).card = some y) ∧
        (noCard (b.grid r c).card = true →
          (Board.map b pid f).1.grid r c = b.grid r c) ∧
        ((Board.map b pid f).1.grid r c).faceUp = (b.grid r c).faceUp ∧
        ((Board.map b pid f).1.grid r c).controller = (b.grid r c).controller) ∧
      (∀ r c r2 c2, r < b.rows → c < b.columns → r2 < b.rows → c2 < b.columns →
        (b.grid r c).card = (b.grid r2 c2).card →
        ((Board.map b pid f).1.grid r c).card
          = ((Board.map b pid f).1.grid r2 c2).card) := by
  rcases map_ok_dest b pid f reps hr with ⟨hres, hgrid, _, _⟩
  rcases computeReplacements_ok f (collectCards b) reps hr with ⟨hkeys, hlook⟩
  refine ⟨hres, hkeys, nodup_collectCards b, mem_collectCards b, ?_, ?_⟩
  · intro r c hrr hcc
    rw [hgrid r c hrr hcc]
    refine ⟨?_, ?_, applySpot_faceUp reps (b.grid r c),
      applySpot_controller reps (b.grid r c)⟩
    · intro x y hcx hxlen hfxy
      have hxmem : x ∈ collectCards b :=
        (mem_collectCards b x).mpr ⟨⟨r, c, hrr, hcc, hcx⟩, hxlen⟩
      rcases hlook x hxmem with ⟨y0, hly, hfy0⟩
      have hy0 : y0 = y := by
        rw [hfxy] at hfy0
        cases hfy0
        rfl
      exact applySpot_card_some reps (b.grid r c) x y hcx hxlen (by rw [hly, hy0])
    · intro hnc
      exact applySpot_noCard reps (b.grid r c) hnc
  · intro r c r2 c2 h1 h2 h3 h4 hcards
    rw [hgrid r c h1 h2, hgrid r2 c2 h3 h4]
    by_cases hnc : noCard (b.grid r c).card = true
    · have hnc2 : noCard (b.grid r2 c2).card = true := by
        rw [← hcards]
        exact hnc
      rw [applySpot_noCard reps _ hnc, applySpot_noCard reps _ hnc2]
      exact hcards
    · cases hcx : (b.grid r c).card with
      | none =>
        rw [hcx] at hnc
        exact absurd rfl hnc
      | some s =>
        have hs : s.length ≠ 0 := by
          intro h0
          apply hnc
          rw [hcx]
          unfold noCard
          simp [h0]
        have hsmem : s ∈ collectCards b :=
          (mem_collectCards b s).mpr ⟨⟨r, c, h1, h2, hcx⟩, hs⟩
        rcases hlook s hsmem with ⟨y0, hly, _⟩
        rw [applySpot_card_some reps (b.grid r c) s y0 hcx hs hly,
            applySpot_card_some reps (b.grid r2 c2) s y0
              (by rw [← hcards]; exact hcx) hs hly]

/-- Witness for C3: appending `!` to every label on the 2x2 `A A / B B`
board rewrites `(0,0)` to `A!` and keeps the two `A`-spots equal. -/
theorem C3_map_success_witness :
    ((Board.map demoAABB "P" (fun s => Except.ok (s ++ "!"))).1.grid 0 0).card
        = some "A!" ∧
      ((Board.map demoAABB "P" (fun s => Except.ok (s ++ "!"))).1.grid 0 1).card
        = ((Board.map demoAABB "P" (fun s => Except.ok (s ++ "!"))).1.grid 0 0).card := by
  have h := C3_map_success demoAABB "P" (fun s => Except.ok (s ++ "!"))
    [("A", "A!"), ("B", "B!")] (by rfl)
  constructor
  · exact (h.2.2.2.2.1 0 0 (by decide) (by decide)).1 "A" "A!" rfl (by decide) rfl
  · exact h.2.2.2.2.2 0 1 0 0 (by decide) (by decide) (by decide) (by decide) rfl

/-- C10: when the function of a successful `map` returns the empty string for a
collected label `x`, every in-bounds spot bearing `x` gets its card set to
the empty string while its `faceUp` and `holder` fields are unchanged; from
then on that spot renders as `none` for every viewer and a first flip
targeting it by any registered player fails with `NoCard` (leaving the board
unchanged) - even if the spot is still face-up and held. -/
theorem C10_map_empty_label (b : Board) (pid : String)
    (f : String → Except String String) (reps : List (String × String))
    (x : String) (hr : computeReplacements f (collectCards b) = .ok reps)
    (hx : x ∈ collectCards b) (hfx : f x = .ok "") :
    ∀ r c, r < b.rows → c < b.columns → (b.grid r c).card = some x →
      ((Board.map b pid f).1.grid r c).card = some "" ∧
      ((Board.map b pid f).1.grid r c).faceUp = (b.grid r c).faceUp ∧
      ((Board.map b pid f).1.grid r c).controller = (b.grid r c).controller ∧
      (∀ pid2, Board.cellLine ((Board.map b pid f).1.grid r c) pid2 = "none") ∧
      (∀ pid2 ps2, (Board.map b pid f).1.players pid2 = some ps2 →
        Board.flipFirstCard (Board.map b pid f).1 pid2 r c
          = ((Board.map b pid f).1, .fail .NoCard, [])) := by
  intro r c hrr hcc hcx
  rcases map_ok_dest b pid f reps hr with ⟨_, hgrid, hrows, hcols⟩
  rcases computeReplacements_ok f (collectCards b) reps hr with ⟨_, hlook⟩
  have hxlen : x.length ≠ 0 := ((mem_collectCards b x).mp hx).2
  rcases hlook x hx with ⟨y0, hly, hfy0⟩
  have hy0 : y0 = "" := by
    rw [hfx] at hfy0
    cases hfy0
    rfl
  have hcard : ((Board.map b pid f).1.grid r c).card = some "" := by
    rw [hgrid r c hrr hcc]
    exact applySpot_card_some reps (b.grid r c) x "" hcx hxlen (by rw [hly, hy0])
  have hnc2 : noCard ((Board.map b pid f).1.grid r c).card = true := by
    rw [hcard]
    rfl
  refine ⟨hcard, ?_, ?_, ?_, ?_⟩
  · rw [hgrid r c hrr hcc]
    exact applySpot_faceUp reps (b.grid r c)
  · rw [hgrid r c hrr hcc]
    exact applySpot_controller reps (b.grid r c)
  · intro pid2
    unfold Board.cellLine
    rw [hcard]
    simp
  · intro pid2 ps2 hps2
    unfold Board.flipFirstCard
    rw [if_pos ⟨by rw [hrows]; exact hrr, by rw [hcols]; exact hcc⟩, hps2]
    simp only [hnc2, if_pos]

/-- Witness for C10: relabeling `A` to the empty string on the 2x2
`A B / A B` board empties `(0,0)`, renders it `none`, and makes a first
flip on it fail with `NoCard`. -/
theorem C10_map_empty_label_witness :
    ((Board.map demoABAB "P"
        (fun s => if s = "A" then Except.ok "" else Except.ok s)).1.grid 0 0).card
        = some "" ∧
      (∀ pid2, Board.cellLine ((Board.map demoABAB "P"
        (fun s => if s = "A" then Except.ok "" else Except.ok s)).1.grid 0 0) pid2
        = "none") := by
  have h := C10_map_empty_label demoABAB "P"
    (fun s => if s = "A" then Except.ok "" else Except.ok s)
    [("A", ""), ("B", "B")] "A" (by rfl) (by decide) (by simp)
    0 0 (by decide) (by decide) rfl
  exact ⟨h.1, h.2.2.2.1⟩

/-! ### Flip dispatch and failure paths (claims C1, C4, C5, C6) -/

theorem flip_S1 (b : Board) (pid : String) (fr fc r c : Nat)
    (hps : b.players pid
      = some { firstCard := some (fr, fc), secondCard := none, matched := false }) :
    Board.flip b pid r c = Board.flipSecondCard b pid r c := by
  have h0 : Board.ensurePlayer b pid = b := Board.ensurePlayer_of_mem b pid _ hps
  simp only [Board.flip, h0, hps]
  simp [hps]

theorem flip_S0 (b : Board) (pid : String) (r c : Nat)
    (hps : b.players pid
      = some { firstCard := none, secondCard := none, matched := false }) :
    Board.flip b pid r c = Board.flipFirstCard b pid r c := by
  have h0 : Board.ensurePlayer b pid = b := Board.ensurePlayer_of_mem b pid _ hps
  simp only [Board.flip, h0, hps]
  simp [hps]

theorem Board.releaseFirst_dest (b : Board) (pid : String) (ps : PlayerState)
    (fr fc : Nat) :
    (Board.releaseFirst b pid ps fr fc).1.grid fr fc
        = { b.grid fr fc with controller := none } ∧
      (∀ r2 c2, ¬(r2 = fr ∧ c2 = fc) →
        (Board.releaseFirst b pid ps fr fc).1.grid r2 c2 = b.grid r2 c2) ∧
      (Board.releaseFirst b pid ps fr fc).1.players pid
        = some { ps with firstCard := none } ∧
      (Board.releaseFirst b pid ps fr fc).1.rows = b.rows ∧
      (Board.releaseFirst b pid ps fr fc).1.columns = b.columns ∧
      (Board.releaseFirst b pid ps fr fc).1.watchers = b.watchers ∧
      (Board.releaseFirst b pid ps fr fc).1.waitingForCard (fr, fc)
        = (b.waitingForCard (fr, fc)).tail ∧
      (∀ k, k ≠ (fr, fc) →
        (Board.releaseFirst b pid ps fr fc).1.waitingForCard k = b.waitingForCard k) ∧
      (Board.releaseFirst b pid ps fr fc).2
        = ((b.waitingForCard (fr, fc)).take 1).map (Ev.wake fr fc) := by
  unfold Board.releaseFirst
  cases hq : b.waitingForCard (fr, fc) with
  | nil =>
    rw [Board.notifyCardAvailable_nil _ fr fc (by simp [hq])]
    simp [hq]
    intro r2 c2 h1 h2 h3
    exact absurd h3 (h1 h2)
  | cons w rest =>
    rw [Board.notifyCardAvailable_cons _ fr fc w rest (by simp [hq])]
    simp [hq]
    constructor
    · intro r2 c2 h1 h2 h3
      exact absurd h3 (h1 h2)
    · intro k1 k2 h1 h2 h3
      exact absurd h3 (h1 h2)

theorem flipSecondCard_noCard (b : Board) (pid : String) (ps : PlayerState)
    (fr fc r c : Nat) (hps : b.players pid = some ps)
    (hfirst : ps.firstCard = some (fr, fc))
    (hbr : r < b.rows ∧ c < b.columns) (hbf : fr < b.rows ∧ fc < b.columns)
    (hnc : noCard (b.grid r c).card = true) :
    Board.flipSecondCard b pid r c
      = ((Board.releaseFirst b pid ps fr fc).1, .fail .NoCard,
         (Board.releaseFirst b pid ps fr fc).2) := by
  unfold Board.flipSecondCard
  rw [if_pos hbr]
  simp only [hps, hfirst, hbf, and_self, if_true, hnc, if_pos]

theorem flipSecondCard_held (b : Board) (pid : String) (ps : PlayerState)
    (fr fc r c : Nat) (hps : b.players pid = some ps)
    (hfirst : ps.firstCard = some (fr, fc))
    (hbr : r < b.rows ∧ c < b.columns) (hbf : fr < b.rows ∧ fc < b.columns)
    (hnc : noCard (b.grid r c).card = false)
    (hctrl : (b.grid r c).controller ≠ none) :
    Board.flipSecondCard b pid r c
      = ((Board.releaseFirst b pid ps fr fc).1, .fail .Held,
         (Board.releaseFirst b pid ps fr fc).2) := by
  unfold Board.flipSecondCard
  rw [if_pos hbr]
  simp only [hps, hfirst, hbf, and_self, if_true, hnc, Bool.false_eq_true,
    if_false, hctrl, ne_eq, not_false_eq_true, if_pos]

theorem flipSecondCard_outOfRange (b : Board) (pid : String) (r c : Nat)
    (hbr : ¬(r < b.rows ∧ c < b.columns)) :
    Board.flipSecondCard b pid r c = (b, .fail .OutOfRange, []) := by
  unfold Board.flipSecondCard
  rw [if_neg hbr]

/-- C1 (amended): while `pid` is in S1 holding its first card, a second
flip that fails with `NoCard` or `Held` first clears the holder of the
first card, resets the turn state to S0, and wakes the next waiter on the
cell of the first card before the error surfaces; but a second flip with
out-of-range coordinates surfaces its error with the board completely
unchanged - the holder of the first card is NOT cleared and the player
stays in S1 (which also
keeps invariants I2-I6 intact, since the turn state still matches the held
spot). -/
theorem C1_flip_failure_release (b : Board) (pid : String) (fr fc : Nat)
    (hps : b.players pid
      = some { firstCard := some (fr, fc), secondCard := none, matched := false })
    (hbf : fr < b.rows ∧ fc < b.columns)
    (hheld : (b.grid fr fc).controller = some pid) :
    ∀ r c,
      ((r < b.rows ∧ c < b.columns) → noCard (b.grid r c).card = true →
        (Board.flip b pid r c).2.1 = .fail .NoCard ∧
        ((Board.flip b pid r c).1.grid fr fc).controller = none ∧
        (Board.flip b pid r c).1.players pid
          = some { firstCard := none, secondCard := none, matched := false } ∧
        (Board.flip b pid r c).1.waitingForCard (fr, fc)
          = (b.waitingForCard (fr, fc)).tail ∧
        (Board.flip b pid r c).2.2
          = ((b.waitingForCard (fr, fc)).take 1).map (Ev.wake fr fc)) ∧
      ((r < b.rows ∧ c < b.columns) → noCard (b.grid r c).card = false →
        (b.grid r c).controller ≠ none →
        (Board.flip b pid r c).2.1 = .fail .Held ∧
        ((Board.flip b pid r c).1.grid fr fc).controller = none ∧
        (Board.flip b pid r c).1.players pid
          = some { firstCard := none, secondCard := none, matched := false } ∧
        (Board.flip b pid r c).1.waitingForCard (fr, fc)
          = (b.waitingForCard (fr, fc)).tail ∧
        (Board.flip b pid r c).2.2
          = ((b.waitingForCard (fr, fc)).take 1).map (Ev.wake fr fc)) ∧
      (¬(r < b.rows ∧ c < b.columns) →
        Board.flip b pid r c = (b, .fail .OutOfRange, []) ∧
        ((Board.flip b pid r c).1.grid fr fc).controller = some pid ∧
        (Board.flip b pid r c).1.players pid
          = some { firstCard := some (fr, fc), secondCard := none,
                   matched := false }) := by
  intro r c
  rcases Board.releaseFirst_dest b pid
    { firstCard := some (fr, fc), secondCard := none, matched := false } fr fc with
    ⟨hg1, _, hpl, _, _, _, hq1, _, hev⟩
  refine ⟨?_, ?_, ?_⟩
  · intro hbr hnc
    rw [flip_S1 b pid fr fc r c hps,
      flipSecondCard_noCard b pid _ fr fc r c hps rfl hbr hbf hnc]
    exact ⟨rfl, by rw [hg1], hpl, hq1, hev⟩
  · intro hbr hnc hctrl
    rw [flip_S1 b pid fr fc r c hps,
      flipSecondCard_held b pid _ fr fc r c hps rfl hbr hbf hnc hctrl]
    exact ⟨rfl, by rw [hg1], hpl, hq1, hev⟩
  · intro hbr
    rw [flip_S1 b pid fr fc r c hps, flipSecondCard_outOfRange b pid r c hbr]
    exact ⟨rfl, hheld, hps⟩

/-- C1 counterexample: with `P` in S1 holding `(0,0)` of the 1x2 board, the
out-of-range flip `(5,0)` fails but leaves the holder of the first card
set, so the claimed "on any failure the holder is cleared and the waiter
woken" is
false as stated. -/
theorem C1_counterexample :
    s1AB.players "P"
        = some { firstCard := some (0, 0), secondCard := none, matched := false } ∧
      (s1AB.grid 0 0).controller = some "P" ∧
      (Board.flip s1AB "P" 5 0).2.1 = .fail .OutOfRange ∧
      ((Board.flip s1AB "P" 5 0).1.grid 0 0).controller = some "P" :=
  ⟨rfl, rfl, rfl, rfl⟩

/-- Witness for C1 (amended) on the 1x2 board: the NoCard conjunct is not
reachable on this board, so the Held conjunct and the out-of-range conjunct
are exercised: `P` holds `(0,0)`; a second flip on the held `(0,0)` fails
`Held` after releasing, and a flip at `(5,0)` keeps the holder. -/
theorem C1_flip_failure_release_witness :
    (Board.flip s1AB "P" 0 0).2.1 = .fail .Held ∧
      ((Board.flip s1AB "P" 0 0).1.grid 0 0).controller = none ∧
      (Board.flip s1AB "P" 5 0).2.1 = .fail .OutOfRange ∧
      ((Board.flip s1AB "P" 5 0).1.grid 0 0).controller = some "P" := by
  have h := C1_flip_failure_release s1AB "P" 0 0 rfl (by decide) rfl
  refine ⟨((h 0 0).2.1 (by decide) (by decide) (by decide)).1,
    ((h 0 0).2.1 (by decide) (by decide) (by decide)).2.1, ?_, ?_⟩
  · exact ((h 5 0).2.2 (by decide)).1 ▸ rfl
  · exact ((h 5 0).2.2 (by decide)).2.1

theorem notifyCardAvailable_grid (b : Board) (r c : Nat) :
    (Board.notifyCardAvailable b r c).1.grid = b.grid := by
  unfold Board.notifyCardAvailable
  split <;> rfl

theorem notifyCardAvailable_players (b : Board) (r c : Nat) :
    (Board.notifyCardAvailable b r c).1.players = b.players := by
  unfold Board.notifyCardAvailable
  split <;> rfl

theorem notifyCardAvailable_rows (b : Board) (r c : Nat) :
    (Board.notifyCardAvailable b r c).1.rows = b.rows := by
  unfold Board.notifyCardAvailable
  split <;> rfl

theorem notifyCardAvailable_columns (b : Board) (r c : Nat) :
    (Board.notifyCardAvailable b r c).1.columns = b.columns := by
  unfold Board.notifyCardAvailable
  split <;> rfl

theorem notifyCardAvailable_watchers (b : Board) (r c : Nat) :
    (Board.notifyCardAvailable b r c).1.watchers = b.watchers := by
  unfold Board.notifyCardAvailable
  split <;> rfl

theorem flipFirstTail_keeps_faceUp (b : Board) (pid : String) (r2 c2 fr fc : Nat)
    (hfup : (b.grid fr fc).faceUp = true) :
    ((Board.flipFirstTail b pid r2 c2).1.grid fr fc).faceUp = true := by
  unfold Board.flipFirstTail
  cases hps : b.players pid with
  | none => exact hfup
  | some ps =>
    simp only [notifyCardAvailable_grid]
    by_cases hsame : fr = r2 ∧ fc = c2
    · rcases hsame with ⟨h1, h2⟩
      subst h1
      subst h2
      cases hsp : (b.grid fr fc).faceUp with
      | false => rw [hsp] at hfup; cases hfup
      | true => simp [hsp]
    · cases hsp : (b.grid r2 c2).faceUp with
      | false => simp [hsp, hsame, hfup]
      | true => simp [hsp, hsame, hfup]

theorem flipFirstCard_keeps_faceUp (b : Board) (pid : String) (r2 c2 fr fc : Nat)
    (hfup : (b.grid fr fc).faceUp = true) :
    ((Board.flipFirstCard b pid r2 c2).1.grid fr fc).faceUp = true := by
  unfold Board.flipFirstCard
  by_cases hb : r2 < b.rows ∧ c2 < b.columns
  · rw [if_pos hb]
    cases hps : b.players pid with
    | none => exact hfup
    | some ps =>
      by_cases hnc : noCard (b.grid r2 c2).card = true
      · simp only [if_pos hnc]
        exact hfup
      · by_cases hc2 : (b.grid r2 c2).controller ≠ none
            ∧ (b.grid r2 c2).controller ≠ some pid
        · simp only [if_neg hnc, if_pos hc2]
          simpa [Board.waitForCard] using hfup
        · simp only [if_neg hnc, if_neg hc2]
          exact flipFirstTail_keeps_faceUp b pid r2 c2 fr fc hfup
  · rw [if_neg hb]
    exact hfup

/-- C5 (amended): a SECOND flip whose target has no card fails with
`NoCard` after clearing the holder of the first spot without flipping it
face-down, resetting the turn state of the player to S0, and waking the
next waiter of the first cell.  Amended: because the reset drops the
`firstCard` of the player, the "turn the released card face-down" cleanup
never runs for it - at the start of the next turn of that player (any next
flip) the released card remains face-up; it is not flipped face-down then
or later by the turn completion of this player. -/
theorem C5_second_flip_noCard (b : Board) (pid : String) (fr fc r c : Nat)
    (hps : b.players pid
      = some { firstCard := some (fr, fc), secondCard := none, matched := false })
    (hbf : fr < b.rows ∧ fc < b.columns) (hbr : r < b.rows ∧ c < b.columns)
    (hfup : (b.grid fr fc).faceUp = true)
    (hnc : noCard (b.grid r c).card = true) :
    (Board.flip b pid r c).2.1 = .fail .NoCard ∧
      ((Board.flip b pid r c).1.grid fr fc).controller = none ∧
      ((Board.flip b pid r c).1.grid fr fc).faceUp = true ∧
      ((Board.flip b pid r c).1.grid fr fc).card = (b.grid fr fc).card ∧
      (Board.flip b pid r c).1.players pid
        = some { firstCard := none, secondCard := none, matched := false } ∧
      (Board.flip b pid r c).1.waitingForCard (fr, fc)
        = (b.waitingForCard (fr, fc)).tail ∧
      (Board.flip b pid r c).2.2
        = ((b.waitingForCard (fr, fc)).take 1).map (Ev.wake fr fc) ∧
      (∀ r2 c2,
        ((Board.flip (Board.flip b pid r c).1 pid r2 c2).1.grid fr fc).faceUp
          = true) := by
  rw [flip_S1 b pid fr fc r c hps,
    flipSecondCard_noCard b pid _ fr fc r c hps rfl hbr hbf hnc]
  rcases Board.releaseFirst_dest b pid
    { firstCard := some (fr, fc), secondCard := none, matched := false } fr fc with
    ⟨hg1, _, hpl, _, _, _, hq1, _, hev⟩
  refine ⟨rfl, by rw [hg1], by rw [hg1]; exact hfup, by rw [hg1], hpl, hq1, hev, ?_⟩
  intro r2 c2
  rw [flip_S0 _ pid r2 c2 hpl]
  exact flipFirstCard_keeps_faceUp _ pid r2 c2 fr fc (by rw [hg1]; exact hfup)

/-- C5 counterexample: on the 1x3 board `A <empty> B`, `P` holds `(0,0)`
face-up, the second flip on the cardless `(0,1)` fails `NoCard` and releases
`(0,0)` (unheld, face-up); but at the start of the next turn of `P` (the flip of
`(0,2)`) the released, unheld spot `(0,0)` is NOT turned face-down - it is
still face-up afterwards, refuting the final sentence of the claim. -/
theorem C5_counterexample :
    (Board.flip s1A3 "P" 0 1).2.1 = .fail .NoCard ∧
      ((Board.flip s1A3 "P" 0 1).1.grid 0 0).controller = none ∧
      ((Board.flip s1A3 "P" 0 1).1.grid 0 0).faceUp = true ∧
      ((Board.flip (Board.flip s1A3 "P" 0 1).1 "P" 0 2).1.grid 0 0).faceUp = true ∧
      ((Board.flip (Board.flip s1A3 "P" 0 1).1 "P" 0 2).1.grid 0 0).controller
        = none :=
  ⟨rfl, rfl, rfl, rfl, rfl⟩

/-- Witness for C5 (amended) on the 1x3 board `A <empty> B`: the failing
second flip on `(0,1)` while holding `(0,0)`. -/
theorem C5_second_flip_noCard_witness :
    (Board.flip s1A3 "P" 0 1).2.1 = .fail .NoCard ∧
      ((Board.flip s1A3 "P" 0 1).1.grid 0 0).controller = none ∧
      ((Board.flip s1A3 "P" 0 1).1.grid 0 0).faceUp = true ∧
      (Board.flip s1A3 "P" 0 1).1.players "P"
        = some { firstCard := none, secondCard := none, matched := false } ∧
      ((Board.flip (Board.flip s1A3 "P" 0 1).1 "P" 0 2).1.grid 0 0).faceUp
        = true := by
  have h := C5_second_flip_noCard s1A3 "P" 0 0 0 1 rfl (by decide) (by decide)
    rfl rfl
  exact ⟨h.1, h.2.1, h.2.2.1, h.2.2.2.2.1, h.2.2.2.2.2.2.2 0 2⟩

/-- C6 (amended): a SECOND flip whose target is already face-up, unheld,
and matches the label of the first card completes successfully, but it emits NO
watcher notification and wakes nobody: the only spot field that changes is
the holder of the target, and the implementation notifies watchers only when a
`faceUp` field changes, a card is removed, or `map` rewrites a label.  Every
registered watcher therefore stays suspended across this flip. -/
theorem C6_faceup_match_silent (b : Board) (pid : String) (fr fc r c : Nat)
    (hps : b.players pid
      = some { firstCard := some (fr, fc), secondCard := none, matched := false })
    (hbr : r < b.rows ∧ c < b.columns) (hbf : fr < b.rows ∧ fc < b.columns)
    (hnc : noCard (b.grid r c).card = false)
    (hctrl : (b.grid r c).controller = none)
    (hfup : (b.grid r c).faceUp = true)
    (hmatch : (b.grid fr fc).card = (b.grid r c).card) :
    (∃ s, (Board.flip b pid r c).2.1 = .done s) ∧
      (Board.flip b pid r c).2.2 = [] ∧
      (Board.flip b pid r c).1.watchers = b.watchers ∧
      ((Board.flip b pid r c).1.grid r c).controller = some pid ∧
      ((Board.flip b pid r c).1.grid r c).faceUp = true ∧
      (Board.flip b pid r c).1.players pid
        = some { firstCard := some (fr, fc), secondCard := some (r, c),
                 matched := true } := by
  rw [flip_S1 b pid fr fc r c hps]
  unfold Board.flipSecondCard
  rw [if_pos hbr]
  simp only [hps]
  have hctrl2 : ¬((b.grid r c).controller ≠ none) := by
    rw [hctrl]
    simp
  simp only [hbf, and_self, if_true, hnc, Bool.false_eq_true, if_false,
    if_neg hctrl2, if_pos hfup, setPS_grid, hmatch, if_pos, updSpot_grid]
  refine ⟨⟨_, rfl⟩, ?_⟩
  simp [hfup]

/-- C6 counterexample: in `c6scn` the watcher `W` is registered, `P2` is in
S1 holding `(1,0)` (an `A`), and the target `(0,0)` is face-up, unheld, and
also an `A`.  The matching second flip by `P2` succeeds but wakes nobody: the
event trace is empty and `W` is still registered afterwards, so "every
watcher registered at that moment is woken by it" is false. -/
theorem C6_counterexample :
    c6scn.watchers = ["W"] ∧
      c6scn.players "P2"
        = some { firstCard := some (1, 0), secondCard := none, matched := false } ∧
      (c6scn.grid 0 0).faceUp = true ∧
      (c6scn.grid 0 0).controller = none ∧
      (c6scn.grid 1 0).card = (c6scn.grid 0 0).card ∧
      (∃ s, (Board.flip c6scn "P2" 0 0).2.1 = .done s) ∧
      (Board.flip c6scn "P2" 0 0).2.2 = [] ∧
      (Board.flip c6scn "P2" 0 0).1.watchers = ["W"] :=
  ⟨rfl, rfl, rfl, rfl, rfl, ⟨_, rfl⟩, rfl, rfl⟩

/-- Witness for C6 (amended) on `c6scn`: the matching face-up second flip
completes, emits no event, and leaves the watcher list untouched. -/
theorem C6_faceup_match_silent_witness :
    (∃ s, (Board.flip c6scn "P2" 0 0).2.1 = .done s) ∧
      (Board.flip c6scn "P2" 0 0).2.2 = [] ∧
      (Board.flip c6scn "P2" 0 0).1.watchers = c6scn.watchers ∧
      ((Board.flip c6scn "P2" 0 0).1.grid 0 0).controller = some "P2" ∧
      (Board.flip c6scn "P2" 0 0).1.players "P2"
        = some { firstCard := some (1, 0), secondCard := some (0, 0),
                 matched := true } := by
  have h := C6_faceup_match_silent c6scn "P2" 1 0 0 0 rfl (by decide) (by decide)
    rfl rfl rfl rfl
  exact ⟨h.1, h.2.1, h.2.2.1, h.2.2.2.1, h.2.2.2.2.2⟩

theorem notifyCardAvailable_queue_self (b0 : Board) (r c : Nat) :
    (Board.notifyCardAvailable b0 r c).1.waitingForCard (r, c)
      = (b0.waitingForCard (r, c)).tail := by
  cases hq : b0.waitingForCard (r, c) with
  | nil =>
    rw [Board.notifyCardAvailable_nil _ _ _ hq]
    simp [hq]
  | cons w rest =>
    rw [Board.notifyCardAvailable_cons _ _ _ w rest hq]
    simp [hq]

theorem notifyCardAvailable_queue_other (b0 : Board) (r c : Nat) (k : Nat × Nat)
    (hk : k ≠ (r, c)) :
    (Board.notifyCardAvailable b0 r c).1.waitingForCard k
      = b0.waitingForCard k := by
  cases hq : b0.waitingForCard (r, c) with
  | nil => rw [Board.notifyCardAvailable_nil _ _ _ hq]
  | cons w rest =>
    rw [Board.notifyCardAvailable_cons _ _ _ w rest hq]
    simp [hk]

theorem notifyCardAvailable_events (b0 : Board) (r c : Nat) :
    (Board.notifyCardAvailable b0 r c).2
      = ((b0.waitingForCard (r, c)).take 1).map (Ev.wake r c) := by
  cases hq : b0.waitingForCard (r, c) with
  | nil =>
    rw [Board.notifyCardAvailable_nil _ _ _ hq]
    simp [hq]
  | cons w rest =>
    rw [Board.notifyCardAvailable_cons _ _ _ w rest hq]
    simp [hq]

theorem finish_matched_dest (b : Board) (pid : String) (fr fc sr sc : Nat)
    (hps : b.players pid
      = some { firstCard := some (fr, fc), secondCard := some (sr, sc),
               matched := true })
    (hbf : fr < b.rows ∧ fc < b.columns) (hbs : sr < b.rows ∧ sc < b.columns)
    (hne : (fr, fc) ≠ (sr, sc)) :
    (Board.finishPreviousPlay b pid).2.1 = none ∧
      (Board.finishPreviousPlay b pid).1.grid fr fc
        = { card := none, faceUp := false, controller := none } ∧
      (Board.finishPreviousPlay b pid).1.grid sr sc
        = { card := none, faceUp := false, controller := none } ∧
      (∀ r2 c2, ¬(r2 = fr ∧ c2 = fc) → ¬(r2 = sr ∧ c2 = sc) →
        (Board.finishPreviousPlay b pid).1.grid r2 c2 = b.grid r2 c2) ∧
      (Board.finishPreviousPlay b pid).1.players pid
        = some { firstCard := none, secondCard := none, matched := false } ∧
      (Board.finishPreviousPlay b pid).1.watchers = [] ∧
      (Board.finishPreviousPlay b pid).1.waitingForCard (fr, fc)
        = (b.waitingForCard (fr, fc)).tail ∧
      (Board.finishPreviousPlay b pid).1.waitingForCard (sr, sc)
        = (b.waitingForCard (sr, sc)).tail ∧
      (Board.finishPreviousPlay b pid).2.2
        = Ev.notify b.watchers
            :: (((b.waitingForCard (fr, fc)).take 1).map (Ev.wake fr fc)
                ++ ((b.waitingForCard (sr, sc)).take 1).map (Ev.wake sr sc)) := by
  have hne2 : ((sr : Nat), (sc : Nat)) ≠ ((fr : Nat), (fc : Nat)) := by
    intro h
    exact hne h.symm
  have hnefr : ¬(fr = sr ∧ fc = sc) := by
    intro h
    exact hne (by rw [Prod.mk.injEq]; exact h)
  unfold Board.finishPreviousPlay
  simp only [hps, hbf, hbs, and_self, if_true]
  refine ⟨by trivial, ?_, ?_, ?_, ?_, ?_, ?_, ?_, ?_⟩
  · simp only [notifyCardAvailable_grid, setPS_grid, Board.notifyWatchers_board,
      Board.removeSpot, updSpot_grid]
    simp [hnefr]
  · simp only [notifyCardAvailable_grid, setPS_grid, Board.notifyWatchers_board,
      Board.removeSpot, updSpot_grid]
    simp
  · intro r2 c2 h1 h2
    simp only [notifyCardAvailable_grid, setPS_grid, Board.notifyWatchers_board,
      Board.removeSpot, updSpot_grid]
    simp [h1, h2]
  · simp only [notifyCardAvailable_players, Board.notifyWatchers_board,
      Board.removeSpot, setPS_players]
    simp
  · simp only [notifyCardAvailable_watchers, setPS_watchers,
      Board.notifyWatchers_board]
  · simp only [setPS_waitingForCard, notifyCardAvailable_queue_other _ sr sc _
      (by intro h; exact hne h), notifyCardAvailable_queue_self,
      Board.notifyWatchers_board, Board.removeSpot, updSpot_waitingForCard]
  · simp only [setPS_waitingForCard, notifyCardAvailable_queue_self,
      notifyCardAvailable_queue_other _ fr fc _ hne2,
      Board.notifyWatchers_board, Board.removeSpot, updSpot_waitingForCard]
  · simp only [Board.notifyWatchers_events, notifyCardAvailable_events,
      notifyCardAvailable_queue_other _ fr fc _ hne2,
      Board.notifyWatchers_board, Board.removeSpot, updSpot_waitingForCard,
      updSpot_watchers]
    simp

/-- C4: when a player in S2-match (both cards held and matched) flips again,
the flip first runs the completion step and only then proceeds as a first
flip; the completion removes both cards (`card = absent`, `faceUp = false`,
`holder = none` on both spots, all other spots untouched), resets the turn
state, empties the watcher set with a single notification event, and wakes
the head waiter of the queue of each of the two freed cells (one wake per
nonempty queue, in first-cell-then-second-cell order after the watcher
notification); a woken waiter that resumes on a cell that now has no card
fails with `NoCard` and changes nothing. -/
theorem C4_match_removal (b : Board) (pid : String) (fr fc sr sc r c : Nat)
    (hps : b.players pid
      = some { firstCard := some (fr, fc), secondCard := some (sr, sc),
               matched := true })
    (hbf : fr < b.rows ∧ fc < b.columns) (hbs : sr < b.rows ∧ sc < b.columns)
    (hne : (fr, fc) ≠ (sr, sc)) :
    Board.flip b pid r c
        = ((Board.flipFirstCard (Board.finishPreviousPlay b pid).1 pid r c).1,
           (Board.flipFirstCard (Board.finishPreviousPlay b pid).1 pid r c).2.1,
           (Board.finishPreviousPlay b pid).2.2
             ++ (Board.flipFirstCard (Board.finishPreviousPlay b pid).1 pid r c).2.2) ∧
      (Board.finishPreviousPlay b pid).1.grid fr fc
        = { card := none, faceUp := false, controller := none } ∧
      (Board.finishPreviousPlay b pid).1.grid sr sc
        = { card := none, faceUp := false, controller := none } ∧
      (∀ r2 c2, ¬(r2 = fr ∧ c2 = fc) → ¬(r2 = sr ∧ c2 = sc) →
        (Board.finishPreviousPlay b pid).1.grid r2 c2 = b.grid r2 c2) ∧
      (Board.finishPreviousPlay b pid).1.players pid
        = some { firstCard := none, secondCard := none, matched := false } ∧
      (Board.finishPreviousPlay b pid).1.watchers = [] ∧
      (Board.finishPreviousPlay b pid).1.waitingForCard (fr, fc)
        = (b.waitingForCard (fr, fc)).tail ∧
      (Board.finishPreviousPlay b pid).1.waitingForCard (sr, sc)
        = (b.waitingForCard (sr, sc)).tail ∧
      (Board.finishPreviousPlay b pid).2.2
        = Ev.notify b.watchers
            :: (((b.waitingForCard (fr, fc)).take 1).map (Ev.wake fr fc)
                ++ ((b.waitingForCard (sr, sc)).take 1).map (Ev.wake sr sc)) ∧
      (∀ (b2 : Board) (w : String) (r2 c2 : Nat),
        noCard (b2.grid r2 c2).card = true →
          Board.flipFirstResume b2 w r2 c2 = (b2, .fail .NoCard, [])) := by
  rcases finish_matched_dest b pid fr fc sr sc hps hbf hbs hne with
    ⟨he, hg1, hg2, hgo, hpl, hw, hq1, hq2, hev⟩
  refine ⟨?_, hg1, hg2, hgo, hpl, hw, hq1, hq2, hev, ?_⟩
  · have h0 : Board.ensurePlayer b pid = b := Board.ensurePlayer_of_mem b pid _ hps
    unfold Board.flip
    simp only [h0, hps]
    simp only [if_true, true_or]
    rw [he, hpl]
    simp
  · intro b2 w r2 c2 hnc
    unfold Board.flipFirstResume
    simp only [hnc, if_pos]

/-- Witness for C4 on `c4scn` (S2-match with waiters `Q` on `(0,0)` and `R`
on `(0,1)`): the completion removes both cards, the trace is the watcher
notification followed by the two head wakes, and the resumed flip by `Q` on the
now-cardless `(0,0)` fails `NoCard`. -/
theorem C4_match_removal_witness :
    (Board.finishPreviousPlay c4scn "P").1.grid 0 0
        = { card := none, faceUp := false, controller := none } ∧
      (Board.finishPreviousPlay c4scn "P").1.grid 0 1
        = { card := none, faceUp := false, controller := none } ∧
      (Board.finishPreviousPlay c4scn "P").2.2
        = Ev.notify c4scn.watchers
            :: (((c4scn.waitingForCard (0, 0)).take 1).map (Ev.wake 0 0)
                ++ ((c4scn.waitingForCard (0, 1)).take 1).map (Ev.wake 0 1)) ∧
      Board.flipFirstResume (Board.finishPreviousPlay c4scn "P").1 "Q" 0 0
        = ((Board.finishPreviousPlay c4scn "P").1, .fail .NoCard, []) := by
  have h := C4_match_removal c4scn "P" 0 0 0 1 1 1 rfl (by decide) (by decide)
    (by decide)
  refine ⟨h.2.1, h.2.2.1, h.2.2.2.2.2.2.2.2.1, ?_⟩
  refine h.2.2.2.2.2.2.2.2.2 _ "Q" 0 0 ?_
  rw [h.2.1]
  rfl

/-! ### The spot invariant holds in every reachable state (claim C8) -/

theorem SpotInv_clearCtrl (s : Spot) (h : SpotInv s) :
    SpotInv { s with controller := none } := by
  unfold SpotInv at *
  refine ⟨fun hc => ⟨(h.1 hc).1, rfl⟩, fun hctrl => absurd rfl hctrl⟩

theorem SpotInv_removed :
    SpotInv { card := none, faceUp := false, controller := none } := by
  unfold SpotInv
  exact ⟨fun _ => ⟨rfl, rfl⟩, fun hctrl => absurd rfl hctrl⟩

theorem SpotInv_faceUpTrue (s : Spot) (hc : s.card ≠ none) :
    SpotInv { s with faceUp := true } := by
  unfold SpotInv
  exact ⟨fun h => absurd h hc, fun _ => ⟨rfl, hc⟩⟩

theorem SpotInv_takeCtrl (s : Spot) (pid : String) (hc : s.card ≠ none)
    (hf : s.faceUp = true) : SpotInv { s with controller := some pid } := by
  unfold SpotInv
  exact ⟨fun h => absurd h hc, fun _ => ⟨hf, hc⟩⟩

theorem SpotInv_faceDown (s : Spot) (hc : s.card ≠ none)
    (hctrl : s.controller = none) : SpotInv { s with faceUp := false } := by
  unfold SpotInv
  exact ⟨fun h => absurd h hc, fun h2 => absurd hctrl h2⟩

theorem SpotInv_of_fields (s : Spot) (hc : s.card ≠ none) (hf : s.faceUp = true) :
    SpotInv s :=
  ⟨fun h => absurd h hc, fun _ => ⟨hf, hc⟩⟩

theorem SpotInv_of_ctrl_none (s : Spot) (h1 : s.controller = none)
    (h2 : s.card = none → s.faceUp = false) : SpotInv s :=
  ⟨fun hc => ⟨h2 hc, h1⟩, fun hc => absurd h1 hc⟩

theorem card_ne_of_noCard_false (oc : Option String)
    (h : ¬(noCard oc = true)) : oc ≠ none := by
  cases oc with
  | none => exact absurd rfl h
  | some s => simp

theorem BoardInv_same_grid (b b2 : Board) (hg : b2.grid = b.grid)
    (hr : b2.rows = b.rows) (hc : b2.columns = b.columns) (hb : BoardInv b) :
    BoardInv b2 := by
  intro r2 c2 h1 h2
  rw [hg]
  exact hb r2 c2 (by rw [← hr]; exact h1) (by rw [← hc]; exact h2)

theorem BoardInv_updSpot (b : Board) (r c : Nat) (s : Spot) (hb : BoardInv b)
    (hs : SpotInv s) : BoardInv (updSpot b r c s) := by
  intro r2 c2 h1 h2
  rw [updSpot_rows] at h1
  rw [updSpot_columns] at h2
  rw [updSpot_grid]
  split
  · exact hs
  · exact hb r2 c2 h1 h2

theorem BoardInv_setPS (b : Board) (pid : String) (ps : PlayerState)
    (hb : BoardInv b) : BoardInv (setPS b pid ps) :=
  BoardInv_same_grid b _ rfl rfl rfl hb

theorem BoardInv_setQueue (b : Board) (r c : Nat) (q : List String)
    (hb : BoardInv b) : BoardInv (setQueue b r c q) :=
  BoardInv_same_grid b _ rfl rfl rfl hb

theorem BoardInv_notifyWatchers (b : Board) (hb : BoardInv b) :
    BoardInv (Board.notifyWatchers b).1 :=
  BoardInv_same_grid b _ rfl rfl rfl hb

theorem BoardInv_notifyCardAvailable (b : Board) (r c : Nat) (hb : BoardInv b) :
    BoardInv (Board.notifyCardAvailable b r c).1 :=
  BoardInv_same_grid b _ (notifyCardAvailable_grid b r c)
    (notifyCardAvailable_rows b r c) (notifyCardAvailable_columns b r c) hb

theorem BoardInv_waitForCard (b : Board) (pid : String) (r c : Nat)
    (hb : BoardInv b) : BoardInv (Board.waitForCard b pid r c) :=
  BoardInv_same_grid b _ rfl rfl rfl hb

theorem BoardInv_ensurePlayer (b : Board) (pid : String) (hb : BoardInv b) :
    BoardInv (Board.ensurePlayer b pid) :=
  BoardInv_same_grid b _ (Board.ensurePlayer_grid b pid)
    (Board.ensurePlayer_rows b pid) (Board.ensurePlayer_columns b pid) hb

theorem BoardInv_look (b : Board) (pid : String) (hb : BoardInv b) :
    BoardInv (Board.look b pid).2 :=
  BoardInv_ensurePlayer b pid hb

theorem BoardInv_watch (b : Board) (pid : String) (hb : BoardInv b) :
    BoardInv (Board.watch b pid) :=
  BoardInv_same_grid b _ (Board.ensurePlayer_grid b pid)
    (Board.ensurePlayer_rows b pid) (Board.ensurePlayer_columns b pid) hb

theorem BoardInv_flipFirstTail (b : Board) (pid : String) (r c : Nat)
    (hb : BoardInv b) (hcard : (b.grid r c).card ≠ none) :
    BoardInv (Board.flipFirstTail b pid r c).1 := by
  unfold Board.flipFirstTail
  cases hps : b.players pid with
  | none => exact hb
  | some ps =>
    by_cases hf : (b.grid r c).faceUp = true
    · simp only [if_pos hf]
      apply BoardInv_notifyCardAvailable
      apply BoardInv_setPS
      apply BoardInv_updSpot _ _ _ _ hb
      exact SpotInv_takeCtrl (b.grid r c) pid hcard hf
    · simp only [if_neg hf, Board.notifyWatchers_board]
      apply BoardInv_notifyCardAvailable
      apply BoardInv_setPS
      have hb1 : BoardInv (updSpot b r c { b.grid r c with faceUp := true }) :=
        BoardInv_updSpot _ _ _ _ hb (SpotInv_faceUpTrue (b.grid r c) hcard)
      apply BoardInv_updSpot _ _ _ _ (BoardInv_same_grid _ _ rfl rfl rfl hb1)
      have hs1 : ({ updSpot b r c { b.grid r c with faceUp := true }
            with watchers := [] }).grid r c
          = { b.grid r c with faceUp := true } := by
        simp
      rw [hs1]
      exact SpotInv_takeCtrl _ pid hcard rfl

theorem BoardInv_flipFirstCard (b : Board) (pid : String) (r c : Nat)
    (hb : BoardInv b) : BoardInv (Board.flipFirstCard b pid r c).1 := by
  unfold Board.flipFirstCard
  by_cases hbnd : r < b.rows ∧ c < b.columns
  · rw [if_pos hbnd]
    cases hps : b.players pid with
    | none => exact hb
    | some ps =>
      by_cases hnc : noCard (b.grid r c).card = true
      · simp only [if_pos hnc]
        exact hb
      · by_cases hc2 : (b.grid r c).controller ≠ none
            ∧ (b.grid r c).controller ≠ some pid
        · simp only [if_neg hnc, if_pos hc2]
          exact BoardInv_waitForCard b pid r c hb
        · simp only [if_neg hnc, if_neg hc2]
          exact BoardInv_flipFirstTail b pid r c hb
            (card_ne_of_noCard_false _ hnc)
  · rw [if_neg hbnd]
    exact hb

theorem BoardInv_flipFirstResume (b : Board) (pid : String) (r c : Nat)
    (hb : BoardInv b) : BoardInv (Board.flipFirstResume b pid r c).1 := by
  unfold Board.flipFirstResume
  by_cases hnc : noCard (b.grid r c).card = true
  · simp only [if_pos hnc]
    exact hb
  · by_cases hc2 : (b.grid r c).controller ≠ none
        ∧ (b.grid r c).controller ≠ some pid
    · simp only [if_neg hnc, if_pos hc2]
      exact hb
    · simp only [if_neg hnc, if_neg hc2]
      exact BoardInv_flipFirstTail b pid r c hb (card_ne_of_noCard_false _ hnc)

theorem BoardInv_releaseFirst (b : Board) (pid : String) (ps : PlayerState)
    (fr fc : Nat) (hbf : fr < b.rows) (hbc : fc < b.columns) (hb : BoardInv b) :
    BoardInv (Board.releaseFirst b pid ps fr fc).1 := by
  unfold Board.releaseFirst
  apply BoardInv_notifyCardAvailable
  apply BoardInv_updSpot _ _ _ _ (BoardInv_setPS b pid _ hb)
  show SpotInv { (setPS b pid { ps with firstCard := none }).grid fr fc
    with controller := none }
  rw [setPS_grid]
  exact SpotInv_clearCtrl (b.grid fr fc) (hb fr fc hbf hbc)

theorem BoardInv_flipSecondCard (b : Board) (pid : String) (r c : Nat)
    (hb : BoardInv b) : BoardInv (Board.flipSecondCard b pid r c).1 := by
  unfold Board.flipSecondCard
  by_cases hbnd : r < b.rows ∧ c < b.columns
  · rw [if_pos hbnd]
    cases hps : b.players pid with
    | none => exact hb
    | some ps =>
      cases hfc : ps.firstCard with
      | none =>
        simp only [hfc]
        exact hb
      | some fpos =>
        simp only [hfc]
        by_cases hbf : fpos.1 < b.rows ∧ fpos.2 < b.columns
        · rw [if_pos hbf]
          by_cases hnc : noCard (b.grid r c).card = true
          · simp only [if_pos hnc]
            exact BoardInv_releaseFirst b pid ps fpos.1 fpos.2 hbf.1 hbf.2 hb
          · by_cases hctrl : (b.grid r c).controller ≠ none
            · simp only [if_neg hnc, if_pos hctrl]
              exact BoardInv_releaseFirst b pid ps fpos.1 fpos.2 hbf.1 hbf.2 hb
            · simp only [if_neg hnc, if_neg hctrl]
              have hcard : (b.grid r c).card ≠ none :=
                card_ne_of_noCard_false _ hnc
              by_cases hf : (b.grid r c).faceUp = true
              · simp only [if_pos hf]
                split
                · apply BoardInv_setPS
                  refine BoardInv_updSpot _ _ _ _ (BoardInv_setPS b pid _ hb) ?_
                  apply SpotInv_of_fields
                  · simpa using hcard
                  · simpa using hf
                · apply BoardInv_notifyCardAvailable
                  refine BoardInv_updSpot _ _ _ _
                    (BoardInv_setPS _ pid _ (BoardInv_setPS b pid _ hb)) ?_
                  apply SpotInv_of_ctrl_none
                  · simp
                  · intro hcnone
                    simp only [setPS_grid] at hcnone
                    exact ((hb fpos.1 fpos.2 hbf.1 hbf.2).1 hcnone).1
              · simp only [if_neg hf, Board.notifyWatchers_board]
                have hbu : BoardInv ({ updSpot b r c
                    { b.grid r c with faceUp := true } with watchers := [] }) := by
                  refine BoardInv_same_grid
                    (updSpot b r c { b.grid r c with faceUp := true }) _ rfl rfl rfl ?_
                  refine BoardInv_updSpot _ _ _ _ hb ?_
                  apply SpotInv_of_fields
                  · simpa using hcard
                  · rfl
                split
                · apply BoardInv_setPS
                  refine BoardInv_updSpot _ _ _ _ (BoardInv_setPS _ pid _ hbu) ?_
                  apply SpotInv_of_fields
                  · simpa using hcard
                  · simp
                · apply BoardInv_notifyCardAvailable
                  refine BoardInv_updSpot _ _ _ _
                    (BoardInv_setPS _ pid _ (BoardInv_setPS _ pid _ hbu)) ?_
                  apply SpotInv_of_ctrl_none
                  · simp
                  · intro hcnone
                    simp only [setPS_grid] at hcnone
                    exact ((hbu fpos.1 fpos.2 (by simpa using hbf.1)
                      (by simpa using hbf.2)).1 hcnone).1
        · rw [if_neg hbf]
          exact hb
  · rw [if_neg hbnd]
    exact hb

theorem BoardInv_finishPreviousPlay (b : Board) (pid : String)
    (hb : BoardInv b) : BoardInv (Board.finishPreviousPlay b pid).1 := by
  unfold Board.finishPreviousPlay
  cases hps : b.players pid with
  | none => exact hb
  | some ps =>
    cases hfc : ps.firstCard with
    | none =>
      simp only [hfc]
      exact hb
    | some fpos =>
      simp only [hfc]
      by_cases hbf : fpos.1 < b.rows ∧ fpos.2 < b.columns
      · rw [if_pos hbf]
        cases hsc : ps.secondCard with
        | some spos =>
          simp only [hsc]
          by_cases hbs : spos.1 < b.rows ∧ spos.2 < b.columns
          · rw [if_pos hbs]
            by_cases hm : ps.matched = true
            · simp only [if_pos hm, Board.notifyWatchers_board, Board.removeSpot]
              apply BoardInv_setPS
              apply BoardInv_notifyCardAvailable
              apply BoardInv_notifyCardAvailable
              refine BoardInv_same_grid
                (updSpot (updSpot b fpos.1 fpos.2
                  { card := none, faceUp := false, controller := none })
                  spos.1 spos.2
                  { card := none, faceUp := false, controller := none })
                _ rfl rfl rfl ?_
              exact BoardInv_updSpot _ _ _ _
                (BoardInv_updSpot _ _ _ _ hb SpotInv_removed) SpotInv_removed
            · simp only [if_neg hm]
              apply BoardInv_setPS
              by_cases hcond : (b.grid fpos.1 fpos.2).card ≠ none
                  ∧ (b.grid fpos.1 fpos.2).faceUp = true
                  ∧ (b.grid fpos.1 fpos.2).controller = none
              · simp only [if_pos hcond, Board.notifyWatchers_board]
                have hbu : BoardInv ({ updSpot b fpos.1 fpos.2
                    { b.grid fpos.1 fpos.2 with faceUp := false }
                    with watchers := [] }) := by
                  refine BoardInv_same_grid
                    (updSpot b fpos.1 fpos.2
                      { b.grid fpos.1 fpos.2 with faceUp := false })
                    _ rfl rfl rfl ?_
                  exact BoardInv_updSpot _ _ _ _ hb
                    (SpotInv_faceDown _ hcond.1 hcond.2.2)
                split
                · rename_i hcond2
                  simp only [Board.notifyWatchers_board]
                  refine BoardInv_same_grid
                    (updSpot ({ updSpot b fpos.1 fpos.2
                      { b.grid fpos.1 fpos.2 with faceUp := false }
                      with watchers := [] }) spos.1 spos.2 _) _ rfl rfl rfl ?_
                  refine BoardInv_updSpot _ _ _ _ hbu ?_
                  apply SpotInv_of_ctrl_none
                  · simpa using hcond2.2.2
                  · intro h2
                    exact absurd h2 hcond2.1
                · exact hbu
              · simp only [if_neg hcond]
                split
                · rename_i hcond2
                  simp only [Board.notifyWatchers_board]
                  refine BoardInv_same_grid
                    (updSpot b spos.1 spos.2 _) _ rfl rfl rfl ?_
                  refine BoardInv_updSpot _ _ _ _ hb ?_
                  apply SpotInv_of_ctrl_none
                  · simpa using hcond2.2.2
                  · intro h2
                    exact absurd h2 hcond2.1
                · exact hb
          · rw [if_neg hbs]
            exact hb
        | none =>
          simp only [hsc]
          apply BoardInv_setPS
          by_cases hcond : (b.grid fpos.1 fpos.2).card ≠ none
              ∧ (b.grid fpos.1 fpos.2).faceUp = true
              ∧ (b.grid fpos.1 fpos.2).controller = none
          · simp only [if_pos hcond, Board.notifyWatchers_board]
            refine BoardInv_same_grid
              (updSpot b fpos.1 fpos.2
                { b.grid fpos.1 fpos.2 with faceUp := false }) _ rfl rfl rfl ?_
            exact BoardInv_updSpot _ _ _ _ hb
              (SpotInv_faceDown _ hcond.1 hcond.2.2)
          · simp only [if_neg hcond]
            exact hb
      · rw [if_neg hbf]
        exact hb

theorem BoardInv_flip (b : Board) (pid : String) (r c : Nat)
    (hb : BoardInv b) : BoardInv (Board.flip b pid r c).1 := by
  have hb0 : BoardInv (Board.ensurePlayer b pid) := BoardInv_ensurePlayer b pid hb
  cases hps : (Board.ensurePlayer b pid).players pid with
  | none =>
    simp only [Board.flip, hps]
    exact hb0
  | some ps =>
    by_cases hcond : ps.matched = true
        ∨ (ps.firstCard ≠ none ∧ ps.secondCard ≠ none)
    · have hbq : BoardInv (Board.finishPreviousPlay
          (Board.ensurePlayer b pid) pid).1 :=
        BoardInv_finishPreviousPlay _ pid hb0
      cases he : (Board.finishPreviousPlay
          (Board.ensurePlayer b pid) pid).2.1 with
      | some e =>
        simp only [Board.flip, hps, if_pos hcond, he]
        exact hbq
      | none =>
        cases hps1 : (Board.finishPreviousPlay
            (Board.ensurePlayer b pid) pid).1.players pid with
        | none =>
          simp only [Board.flip, hps, if_pos hcond, he, hps1]
          exact hbq
        | some ps1 =>
          by_cases hfc : ps1.firstCard = none
          · simp only [Board.flip, hps, if_pos hcond, he, hps1, if_pos hfc]
            exact BoardInv_flipFirstCard _ pid r c hbq
          · simp only [Board.flip, hps, if_pos hcond, he, hps1, if_neg hfc]
            exact BoardInv_flipSecondCard _ pid r c hbq
    · by_cases hfc : ps.firstCard = none
      · simp only [Board.flip, hps, if_neg hcond, if_pos hfc]
        exact BoardInv_flipFirstCard _ pid r c hb0
      · simp only [Board.flip, hps, if_neg hcond, if_neg hfc]
        exact BoardInv_flipSecondCard _ pid r c hb0

theorem SpotInv_applySpot (reps : List (String × String)) (s : Spot)
    (h : SpotInv s) : SpotInv (applySpot reps s) := by
  unfold applySpot
  cases hc : s.card with
  | none => exact h
  | some s0 =>
    by_cases hs0 : s0.length = 0
    · simp only [if_pos hs0]
      exact h
    · simp only [if_neg hs0]
      cases lookupRep reps s0 with
      | none => exact h
      | some y =>
        by_cases hy : y = s0
        · simp only [if_pos hy]
          exact h
        · simp only [if_neg hy]
          unfold SpotInv at *
          constructor
          · intro h2
            simp at h2
          · intro hctrl
            refine ⟨(h.2 ?_).1, by simp⟩
            simpa using hctrl

theorem BoardInv_map (b : Board) (pid : String)
    (f : String → Except String String) (hb : BoardInv b) :
    BoardInv (Board.map b pid f).1 := by
  have hb0 : BoardInv (Board.ensurePlayer b pid) := BoardInv_ensurePlayer b pid hb
  have hba : ∀ reps, BoardInv (mapApply (Board.ensurePlayer b pid) reps) := by
    intro reps r2 c2 h1 h2
    show SpotInv (if r2 < (Board.ensurePlayer b pid).rows
        ∧ c2 < (Board.ensurePlayer b pid).columns
      then applySpot reps ((Board.ensurePlayer b pid).grid r2 c2)
      else (Board.ensurePlayer b pid).grid r2 c2)
    have h1b : r2 < (Board.ensurePlayer b pid).rows := h1
    have h2b : c2 < (Board.ensurePlayer b pid).columns := h2
    rw [if_pos ⟨h1b, h2b⟩]
    exact SpotInv_applySpot reps _ (hb0 r2 c2 h1b h2b)
  cases hcr : computeReplacements f (collectCards (Board.ensurePlayer b pid)) with
  | error e =>
    simp only [Board.map, hcr]
    exact hb0
  | ok reps =>
    by_cases hch : mapChanged (Board.ensurePlayer b pid) reps = true
    · simp only [Board.map, hcr, if_pos hch, Board.notifyWatchers_board]
      exact BoardInv_same_grid (mapApply (Board.ensurePlayer b pid) reps) _
        rfl rfl rfl (hba reps)
    · simp only [Board.map, hcr, if_neg hch]
      exact hba reps

theorem BoardInv_mkBoard (rows columns : Nat) (cards : List String) (b : Board)
    (h : mkBoard rows columns cards = some b) : BoardInv b := by
  unfold mkBoard at h
  split at h
  · cases h
    intro r c _ _
    constructor
    · intro hc
      cases hc
    · intro hctrl
      exact absurd rfl hctrl
  · cases h

/-- C8: in every reachable board state (a constructed board after any
sequence of `look`, `flip`, resumed waits, `map` and `watch` operations),
every in-bounds spot satisfies: a removed spot (`card = null`) is not
face-up and has no holder, and a held spot is face-up with a present card
(invariants I4 and I5). -/
theorem C8_spot_invariant (b : Board) (hb : Reachable b) :
    ∀ r c, r < b.rows → c < b.columns →
      ((b.grid r c).card = none →
        (b.grid r c).faceUp = false ∧ (b.grid r c).controller = none) ∧
      ((b.grid r c).controller ≠ none →
        (b.grid r c).faceUp = true ∧ (b.grid r c).card ≠ none) := by
  have hinv : BoardInv b := by
    induction hb with
    | init rows columns cards b h => exact BoardInv_mkBoard rows columns cards b h
    | step b b2 hb hs ih =>
      cases hs with
      | look pid => exact BoardInv_look b pid ih
      | flip pid r c => exact BoardInv_flip b pid r c ih
      | resume pid r c hr hc => exact BoardInv_flipFirstResume b pid r c ih
      | mapf pid f => exact BoardInv_map b pid f ih
      | watch pid => exact BoardInv_watch b pid ih
  exact hinv

/-- Witness for C8: the constructed 1x2 board `A B` is reachable and its
spot `(0,0)` satisfies both invariant clauses. -/
theorem C8_spot_invariant_witness :
    ((demoAB.grid 0 0).card = none →
        (demoAB.grid 0 0).faceUp = false ∧ (demoAB.grid 0 0).controller = none) ∧
      ((demoAB.grid 0 0).controller ≠ none →
        (demoAB.grid 0 0).faceUp = true ∧ (demoAB.grid 0 0).card ≠ none) :=
  C8_spot_invariant demoAB (Reachable.init 1 2 ["A", "B"] demoAB rfl)
    0 0 (by decide) (by decide)

/-- Witness for C9 on the concrete 1x2 board: instantiating the cell-line
clause at `(0, 1)` and the registered-player clause after a `look`. -/
theorem C9_renderer_witness :
    (renderLines demoAB "P").getD (1 + (0 * demoAB.columns + 1)) ""
        = specCellLine (demoAB.grid 0 1) "P" ∧
      (Board.look (Board.look demoAB "P").2 "P").2 = (Board.look demoAB "P").2 := by
  constructor
  · exact ((C9_renderer.2.2.1 demoAB "P" 0 1 (by decide) (by decide)).1)
  · exact C9_renderer.2.2.2.2 (Board.look demoAB "P").2 "P"
      { firstCard := none, secondCard := none, matched := false } rfl

end MS



